import Mathlib

/-
Verification of the calendar event editing engine (CalendarEventViewModel and its
helpers) against its natural language specification.

The TypeScript class CalendarEventViewModel is embedded shallowly:
  - machine dates (JS Date objects) become integers counting minutes since the
    epoch; day arithmetic and year extraction use a proleptic Gregorian civil
    calendar (the time zone of the view model is modelled as UTC, which is the
    representation the specification prescribes for all day events);
  - the mutable class becomes a state record VMState, and each method becomes a
    function from VMState (plus its arguments) to VMState, possibly paired with
    a trace of the calls made to the external distributor and calendar store;
  - asynchronous promise chains in the source are strictly sequential, so they
    are embedded as sequential composition, and fallible steps return Except.

Helpers that live outside the provided sources (tutanota-utils, CalendarUtils,
CommonCalendarUtils, SendMailModel) are modelled from the specification; each
such definition carries a doc comment starting with: Modelled from the spec.
-/

namespace Tutanota

/-- RSVP status of an attendee (TutanotaConstants.CalendarAttendeeStatus).
ADDED is the transient added-pending status given to freshly invited guests. -/
inductive CalendarAttendeeStatus where
  | NEEDS_ACTION
  | ACCEPTED
  | DECLINED
  | TENTATIVE
  | ADDED
deriving DecidableEq, Repr

/-- Role classification of the editor with respect to the event (enum EventType
in CalendarEventViewModel). -/
inductive EventType where
  | OWN
  | SHARED_RO
  | SHARED_RW
  | INVITE
deriving DecidableEq, Repr

/-- End policy of a repeat rule (TutanotaConstants.EndType). -/
inductive EndType where
  | Never
  | Count
  | UntilDate
deriving DecidableEq, Repr

/-- Frequency of a repeat rule (TutanotaConstants.RepeatPeriod). -/
inductive RepeatPeriod where
  | DAILY
  | WEEKLY
  | MONTHLY
  | ANNUALLY
deriving DecidableEq, Repr

/-- Account type of the logged in user; only the constants the view model
consults are modelled (TutanotaConstants.AccountType). -/
inductive AccountType where
  | FREE
  | PREMIUM
  | EXTERNAL
deriving DecidableEq, Repr

/-- A mail address with a display name (entity EncryptedMailAddress). -/
structure EncryptedMailAddress where
  name : String
  address : String
deriving DecidableEq, Repr

/-- A recipient entry of one of the three send mail models (rosters). -/
structure Recipient where
  name : String
  address : String
deriving DecidableEq, Repr

/-- An attendee record on a persisted calendar event. -/
structure CalendarEventAttendee where
  address : EncryptedMailAddress
  status : CalendarAttendeeStatus
deriving DecidableEq, Repr

/-- Persisted repeat rule of a calendar event (entity CalendarRepeatRule).
Excluded dates are the instants of suppressed occurrences; the DateWrapper
entity wraps exactly one date, so the list is modelled as a list of instants.
Interval and end value are number strings in the entity model and are modelled
numerically. -/
structure CalendarRepeatRule where
  frequency : RepeatPeriod
  interval : Int
  endType : EndType
  endValue : Option Int
  timeZone : String
  excludedDates : List Int
deriving DecidableEq, Repr

/-- Persisted calendar event snapshot (entity CalendarEvent). The id is the
pair of list id and element id; sequence is the revision counter (a number
string in the entity model, modelled as Nat). -/
structure CalendarEvent where
  evId : Option (String × String)
  ownerGroup : Option String
  startTime : Int
  endTime : Int
  summary : String
  description : String
  location : String
  invitedConfidentially : Option Bool
  uid : Option String
  sequence : Nat
  organizer : Option EncryptedMailAddress
  attendees : List CalendarEventAttendee
  repeatRule : Option CalendarRepeatRule
deriving DecidableEq, Repr

/-- Mutable recurrence data of the draft (type RepeatData). The end value is
a count for the Count policy and an instant for the UntilDate policy. -/
structure RepeatData where
  frequency : RepeatPeriod
  interval : Int
  endType : EndType
  endValue : Int
  excludedDates : List Int
deriving DecidableEq, Repr

/-- Derived attendee entry of the composed attendee projection (type Guest).
The recipient resolution type is irrelevant to the verified claims and is
omitted. -/
structure Guest where
  address : EncryptedMailAddress
  status : CalendarAttendeeStatus
deriving DecidableEq, Repr

/-- Calendar metadata visible to the editor (type CalendarInfo); groupId is the
id of the calendar group, shared marks calendars the editor does not own. -/
structure CalendarInfo where
  groupId : String
  shared : Bool
deriving DecidableEq, Repr

/-- Result record of initEventTypeAndOrganizers (type InitEventTypeReturn). -/
structure InitEventTypeReturn where
  eventType : EventType
  organizer : Option EncryptedMailAddress
  possibleOrganizers : List EncryptedMailAddress
deriving DecidableEq, Repr

/-- Modelled from the spec: cleanMailAddress (CommonCalendarUtils is not under
src). The spec describes addresses as case and format normalized for
comparisons; the normalization is modelled as lower casing (performed on the
character list so that it evaluates by kernel reduction). -/
def cleanMailAddress (address : String) : String :=
  String.mk (address.data.map Char.toLower)

/-- Embeds findAttendeeInAddresses (CommonCalendarUtils, missing from src,
behaviour fixed by its call sites and the spec): first element whose cleaned
address occurs among the cleaned search addresses. The address projection is a
parameter because the source function is generic. -/
def findAttendeeInAddresses {α : Type} (addrOf : α → String) (attendees : List α)
    (addresses : List String) : Option α :=
  attendees.find? (fun a =>
    (addresses.map cleanMailAddress).contains (cleanMailAddress (addrOf a)))

/-- Modelled from the spec: findRecipientWithAddress (MailUtils is not under
src): first element with exactly the given address. -/
def findRecipientWithAddress {α : Type} (addrOf : α → String) (recipients : List α)
    (address : String) : Option α :=
  recipients.find? (fun r => addrOf r == address)

/-- Status ledger: finite map from attendee address to RSVP status, modelled
as an association list (tutanota-utils Map helpers are not under src). -/
abbrev StatusLedger : Type := List (String × CalendarAttendeeStatus)

/-- Lookup in the status ledger. -/
def lookupStatus (m : StatusLedger) (k : String) : Option CalendarAttendeeStatus :=
  (m.find? (fun e => e.fst == k)).map (fun e => e.snd)

/-- Modelled from the spec: addMapEntry of tutanota-utils, an insert or
overwrite of one key. -/
def addMapEntry (m : StatusLedger) (k : String) (v : CalendarAttendeeStatus) :
    StatusLedger :=
  (k, v) :: m.filter (fun e => e.fst != k)

/-- Modelled from the spec: deleteMapEntry of tutanota-utils, removal of one
key. -/
def deleteMapEntry (m : StatusLedger) (k : String) : StatusLedger :=
  m.filter (fun e => e.fst != k)

/-- Minutes per calendar day; instants are counted in minutes since the epoch. -/
def minutesPerDay : Int := 1440

/-- Epoch day of an instant. -/
def dayOfInstant (t : Int) : Int := Int.ediv t minutesPerDay

/-- Instant of the day boundary (start of day) containing the given instant;
models getStartOfDayWithZone and getAllDayDateUTC in the UTC model. -/
def dayAlign (t : Int) : Int := dayOfInstant t * minutesPerDay

/-- Civil date from an epoch day count (proleptic Gregorian calendar, the
standard era based conversion): returns year, month, day. -/
def civilFromDays (z : Int) : Int × Int × Int :=
  let z := z + 719468
  let era := Int.ediv z 146097
  let doe := z - era * 146097
  let yoe := Int.ediv (doe - Int.ediv doe 1460 + Int.ediv doe 36524 - Int.ediv doe 146096) 365
  let y := yoe + era * 400
  let doy := doe - (365 * yoe + Int.ediv yoe 4 - Int.ediv yoe 100)
  let mp := Int.ediv (5 * doy + 2) 153
  let d := doy - Int.ediv (153 * mp + 2) 5 + 1
  let m := mp + (if mp < 10 then 3 else -9)
  (if m ≤ 2 then y + 1 else y, m, d)

/-- Epoch day count from a civil date (inverse of civilFromDays; out of range
month days roll over exactly like the JS Date setters). -/
def daysFromCivil (y m d : Int) : Int :=
  let y := if m ≤ 2 then y - 1 else y
  let era := Int.ediv y 400
  let yoe := y - era * 400
  let mp := Int.emod (m + 9) 12
  let doy := Int.ediv (153 * mp + 2) 5 + d - 1
  let doe := yoe * 365 + Int.ediv yoe 4 - Int.ediv yoe 100 + doy
  era * 146097 + doe - 719468

/-- Calendar year of an instant (JS Date getFullYear in the UTC model). -/
def yearOfInstant (t : Int) : Int :=
  (civilFromDays (dayOfInstant t)).fst

/-- Replaces the calendar year of an instant keeping month, day and time of
day (JS Date setFullYear in the UTC model). -/
def setFullYearInstant (t : Int) (y : Int) : Int :=
  let c := civilFromDays (dayOfInstant t)
  daysFromCivil y c.snd.fst c.snd.snd * minutesPerDay + Int.emod t minutesPerDay

/-- First year representable by the custom event ids
(DateUtils.TIMESTAMP_ZERO_YEAR). -/
def TIMESTAMP_ZERO_YEAR : Int := 1970

/-- Modelled from the spec: getDiffInDays of CalendarUtils (not under src); the
spec says the end date is shifted by the same day delta as the start date, so
the difference is the signed day count from the old to the new date. -/
def getDiffInDays (oldDate newDate : Int) : Int :=
  dayOfInstant newDate - dayOfInstant oldDate

/-- Modelled from the spec: incrementSequence of CalendarUtils (not under src);
the revision counter is incremented for authoritative (own event) edits and
kept otherwise. -/
def incrementSequence (sequence : Nat) (isOwnEvent : Bool) : Nat :=
  if isOwnEvent then sequence + 1 else sequence

/-- Modelled from the spec: incrementByRepeatPeriod for one month (CalendarUtils
is not under src), used to seed a default until date one month out. -/
def addOneMonthInstant (t : Int) : Int :=
  let c := civilFromDays (dayOfInstant t)
  (if c.snd.fst = 12 then daysFromCivil (c.fst + 1) 1 c.snd.snd
   else daysFromCivil c.fst (c.snd.fst + 1) c.snd.snd) * minutesPerDay
    + Int.emod t minutesPerDay

/-- Lookup of a calendar info by owner group id (ReadonlyMap get). -/
def lookupCalendar (calendars : List (String × CalendarInfo)) (g : String) :
    Option CalendarInfo :=
  (calendars.find? (fun e => e.fst == g)).map (fun e => e.snd)

/-- Embeds addressToMailAddress: wraps a raw address with the sender name
configured for it in the mailbox properties (getSenderName is modelled as a
name assignment function). -/
def addressToMailAddress (senderName : String → String) (address : String) :
    EncryptedMailAddress :=
  { name := senderName address, address := address }

/-- Embeds ownPossibleOrganizers: every enabled own address wrapped as a mail
address. -/
def ownPossibleOrganizers (senderName : String → String)
    (ownMailAddresses : List String) : List EncryptedMailAddress :=
  ownMailAddresses.map (addressToMailAddress senderName)

/-- Embeds the private method hasGuests: the existing event has guests unless
it has no attendees or its only attendee is the editor. -/
def hasGuestsOf (existingEvent : Option CalendarEvent)
    (ownMailAddresses : List String) : Bool :=
  match existingEvent with
  | none => false
  | some e =>
      !e.attendees.isEmpty &&
        !(e.attendees.length == 1 &&
          (findAttendeeInAddresses (fun a => a.address.address) e.attendees
              ownMailAddresses).isSome)

/-- Embeds initEventTypeAndOrganizers. Inputs: the original event (or none),
the visible calendar map, the editor address set, the default sender address,
the sender name assignment of the mailbox properties and the write capability
oracle hasCapabilityOnGroup for ShareCapability.Write. copyMailAddress is a
value copy and is the identity in this embedding. -/
def initEventTypeAndOrganizers
    (existingEvent : Option CalendarEvent)
    (calendars : List (String × CalendarInfo))
    (ownMailAddresses : List String)
    (defaultSenderAddress : String)
    (senderName : String → String)
    (hasWriteCapabilityOnGroup : String → Bool) : InitEventTypeReturn :=
  let ownDefaultSender := addressToMailAddress senderName defaultSenderAddress
  match existingEvent with
  | none =>
      { eventType := EventType.OWN
        organizer := some ownDefaultSender
        possibleOrganizers := ownPossibleOrganizers senderName ownMailAddresses }
  | some e =>
      let calendarInfoForEvent := e.ownerGroup.bind (lookupCalendar calendars)
      let existingOrganizer := e.organizer
      match calendarInfoForEvent with
      | some ci =>
          if ci.shared then
            { eventType :=
                if hasWriteCapabilityOnGroup ci.groupId then EventType.SHARED_RW
                else EventType.SHARED_RO
              organizer := existingOrganizer
              possibleOrganizers := existingOrganizer.toList }
          else
            let organizerIsOwn :=
              match existingOrganizer with
              | some o => ownMailAddresses.contains o.address
              | none => false
            if existingOrganizer.isNone || organizerIsOwn || e.attendees.isEmpty then
              let actualOrganizer :=
                match existingOrganizer with
                | some o =>
                    if ownMailAddresses.contains o.address then o else ownDefaultSender
                | none => ownDefaultSender
              { eventType := EventType.OWN
                organizer := some actualOrganizer
                possibleOrganizers :=
                  if hasGuestsOf (some e) ownMailAddresses then [actualOrganizer]
                  else ownPossibleOrganizers senderName ownMailAddresses }
            else
              { eventType := EventType.INVITE
                organizer := existingOrganizer
                possibleOrganizers := existingOrganizer.toList }
      | none =>
          { eventType := EventType.INVITE
            organizer := existingOrganizer
            possibleOrganizers := existingOrganizer.toList }

/-- Embeds areExcludedDatesEqual: two sorted exclusion lists are equivalent
when they have the same length and agree instant by instant. -/
def areExcludedDatesEqual (e1 e2 : List Int) : Bool :=
  e1.length == e2.length && (e1.zip e2).all (fun p => p.fst == p.snd)

/-- Embeds areRepeatRulesEqual: reference equality short circuit followed by a
field by field comparison through optional chaining. -/
def areRepeatRulesEqual (r1 r2 : Option CalendarRepeatRule) : Bool :=
  r1 == r2 ||
    (r1.map (fun r => r.endType) == r2.map (fun r => r.endType) &&
     r1.map (fun r => r.endValue) == r2.map (fun r => r.endValue) &&
     r1.map (fun r => r.frequency) == r2.map (fun r => r.frequency) &&
     r1.map (fun r => r.interval) == r2.map (fun r => r.interval) &&
     r1.map (fun r => r.timeZone) == r2.map (fun r => r.timeZone) &&
     areExcludedDatesEqual ((r1.map (fun r => r.excludedDates)).getD [])
       ((r2.map (fun r => r.excludedDates)).getD []))

/-- Comparison key of one attendee for the diff detector: participation status
together with the cleaned address; names are ignored. -/
def attendeeComparisonKey (a : CalendarEventAttendee) :
    CalendarAttendeeStatus × String :=
  (a.status, cleanMailAddress a.address.address)

/-- Modelled from the spec: the attendee list comparison of the diff detector
delegates to arrayEqualsWithPredicate of tutanota-utils (not under src) with a
predicate comparing status and cleaned address; the spec describes it as an
order insensitive equality of address and status pairs with names ignored, so
it is modelled as permutation equivalence of the comparison keys. -/
def attendeeListsEqual (a1 a2 : List CalendarEventAttendee) : Bool :=
  (a1.map attendeeComparisonKey).isPerm (a2.map attendeeComparisonKey)

/-- Embeds the private method _hasChanges of CalendarEventViewModel. The two
organizer conjuncts mirror the source: a reference comparison (modelled as
value equality, which the reference comparison refines) guarding an address
comparison that ignores names. The sequence counter and the internal instance
fields are not compared. -/
def hasChanges : Option CalendarEvent → CalendarEvent → Bool
  | none, _ => true
  | some existing, newEvent =>
      newEvent.startTime != existing.startTime ||
      newEvent.description != existing.description ||
      newEvent.summary != existing.summary ||
      newEvent.location != existing.location ||
      newEvent.endTime != existing.endTime ||
      newEvent.invitedConfidentially != existing.invitedConfidentially ||
      newEvent.uid != existing.uid ||
      !areRepeatRulesEqual newEvent.repeatRule existing.repeatRule ||
      !attendeeListsEqual newEvent.attendees existing.attendees ||
      (newEvent.organizer != existing.organizer &&
        newEvent.organizer.map (fun o => o.address)
          != existing.organizer.map (fun o => o.address))

/-- State of one CalendarEventViewModel instance. Streams become plain fields;
the three SendMailModel rosters are their bcc recipient lists; the internal
password and confidentiality state of the rosters, the business feature flag
and the plan oracle of the user controller are boolean fields (those helpers
live in SendMailModel and UserController, outside src, and are modelled from
the spec). The field now is the wall clock used by the source through
Date.now and new Date(). Alarms, time pickers and the zone are not consulted
by any verified claim and are omitted. -/
structure VMState where
  ownMailAddresses : List String
  senderName : String
  senderAddress : String
  eventType : EventType
  organizer : Option EncryptedMailAddress
  possibleOrganizers : List EncryptedMailAddress
  existingEvent : Option CalendarEvent
  inviteRecipients : List Recipient
  updateRecipients : List Recipient
  cancelRecipients : List Recipient
  guestStatuses : StatusLedger
  ownAttendee : Option EncryptedMailAddress
  startDate : Int
  endDate : Int
  startTime : Option (Int × Int)
  endTime : Option (Int × Int)
  allDay : Bool
  repeatData : Option RepeatData
  summary : String
  location : String
  note : String
  processing : Bool
  isForceUpdates : Bool
  hasBusinessFeature : Bool
  isNewPaidPlan : Bool
  accountType : AccountType
  selectedCalendar : Option CalendarInfo
  calendars : List (String × CalendarInfo)
  inviteConfidential : Bool
  updateConfidential : Bool
  cancelConfidential : Bool
  inviteInsecurePasswords : Bool
  updateInsecurePasswords : Bool
  cancelInsecurePasswords : Bool
  inviteHasExternalRecipients : Bool
  updateHasExternalRecipients : Bool
  cancelHasExternalRecipients : Bool
  responseTo : Option Unit
  now : Int
deriving DecidableEq, Repr

/-- One guest entry of the composed projection for one roster recipient, with
the status looked up in the ledger and defaulting to needs action. -/
def guestOfRecipient (ledger : StatusLedger) (r : Recipient) : Guest :=
  { address := { name := r.name, address := r.address }
    status := (lookupStatus ledger r.address).getD CalendarAttendeeStatus.NEEDS_ACTION }

/-- Embeds the composed attendee projection (_initAttendees): the invite roster
guests followed by the update roster guests, with the own attendee put first
when present, defaulting to accepted. -/
def attendeesList (s : VMState) : List Guest :=
  let guests :=
    s.inviteRecipients.map (guestOfRecipient s.guestStatuses) ++
      s.updateRecipients.map (guestOfRecipient s.guestStatuses)
  match s.ownAttendee with
  | some own =>
      { address := own
        status := (lookupStatus s.guestStatuses own.address).getD
          CalendarAttendeeStatus.ACCEPTED } :: guests
  | none => guests

/-- Embeds findOwnAttendee: the first composed attendee whose address is one of
the editor addresses. -/
def findOwnAttendee (s : VMState) : Option Guest :=
  findAttendeeInAddresses (fun g => g.address.address) (attendeesList s)
    s.ownMailAddresses

/-- Embeds canModifyOrganizer: only on an own event without real guests. -/
def canModifyOrganizer (s : VMState) : Bool :=
  s.eventType == EventType.OWN && !hasGuestsOf s.existingEvent s.ownMailAddresses

/-- Embeds canModifyOwnAttendance: always on an own event, and on an invite
when the editor is among the attendees. -/
def canModifyOwnAttendance (s : VMState) : Bool :=
  s.eventType == EventType.OWN ||
    (s.eventType == EventType.INVITE && (findOwnAttendee s).isSome)

/-- Embeds setOrganizer: guarded by canModifyOrganizer; sets the organizer and
marks the same address as the own attendee. -/
def setOrganizer (s : VMState) (newOrganizer : EncryptedMailAddress) : VMState :=
  if canModifyOrganizer s then
    { s with organizer := some newOrganizer, ownAttendee := some newOrganizer }
  else s

/-- Embeds selectGoing: guarded by canModifyOwnAttendance; updates the ledger
entry of the own attendee, creating the own attendee from the default sender
of the invite model on an own event when absent. -/
def selectGoing (s : VMState) (going : CalendarAttendeeStatus) : VMState :=
  if canModifyOwnAttendance s then
    match s.ownAttendee with
    | some own =>
        { s with guestStatuses := addMapEntry s.guestStatuses own.address going }
    | none =>
        if s.eventType == EventType.OWN then
          let newOwnAttendee : EncryptedMailAddress :=
            { name := s.senderName, address := s.senderAddress }
          { s with
            ownAttendee := some newOwnAttendee
            guestStatuses := addMapEntry s.guestStatuses newOwnAttendee.address going }
        else s
  else s

/-- Modelled from the spec: addRecipient of SendMailModel (not under src)
deduplicates by address, so adding an already rostered address is a no op;
otherwise the recipient is appended. The attached contact only seeds the
display name and is not consulted by any verified claim. -/
def addRecipient (roster : List Recipient) (r : Recipient) : List Recipient :=
  if roster.any (fun x => x.address == r.address) then roster else roster ++ [r]

/-- Roster step of addGuest (source step 2): a foreign address is added to the
invite roster (the send mail model deduplicates), an own address never is. -/
def addGuestStepRoster (isOwnAttendee : Bool) (mailAddress : String)
    (s : VMState) : VMState :=
  if !isOwnAttendee then
    { s with inviteRecipients :=
        addRecipient s.inviteRecipients { name := "", address := mailAddress } }
  else s

/-- Self replacement step of addGuest (source step 3): when the added address
is an own one and the editor is already represented, the ledger entry of the
current own attendee is dropped. -/
def addGuestStepDropOwn (isOwnAttendee : Bool) (s : VMState) : VMState :=
  if isOwnAttendee then
    match findOwnAttendee s with
    | some ownAtt =>
        { s with guestStatuses :=
            deleteMapEntry s.guestStatuses ownAtt.address.address }
    | none => s
  else s

/-- Status step of addGuest (source step 4): the new guest receives its
initial status unless the ledger already tracks the address. -/
def addGuestStepStatus (mailAddress : String) (status : CalendarAttendeeStatus)
    (s : VMState) : VMState :=
  if (lookupStatus s.guestStatuses mailAddress).isNone then
    { s with guestStatuses := addMapEntry s.guestStatuses mailAddress status }
  else s

/-- Organizer step of addGuest: an own address found among the possible
organizers replaces the organizer through setOrganizer. -/
def addGuestStepOrganizer (isOwnAttendee : Bool) (mailAddress : String)
    (s : VMState) : VMState :=
  if isOwnAttendee then
    match findRecipientWithAddress (fun o => o.address) s.possibleOrganizers
        mailAddress with
    | some newOrganizer => setOrganizer s newOrganizer
    | none => s
  else s

/-- Auto join step of addGuest (source step 5): when the roster now holds the
very first attendee and the editor is not represented, the editor joins as
accepted through selectGoing. -/
def addGuestStepAutoJoin (s : VMState) : VMState :=
  if (attendeesList s).length == 1 && (findOwnAttendee s).isNone then
    selectGoing s CalendarAttendeeStatus.ACCEPTED
  else s

/-- Embeds addGuest: a no op for an existing attendee, otherwise the five
sequential steps of the source method in order: roster insertion for foreign
addresses, removal of the previous own ledger entry for own addresses, status
assignment (accepted for own addresses, added pending for foreign ones),
organizer replacement for own addresses, and the editor auto join. -/
def addGuest (s : VMState) (mailAddress : String) : VMState :=
  if (findAttendeeInAddresses (fun g => g.address.address) (attendeesList s)
      [mailAddress]).isSome then s
  else
    let isOwnAttendee := s.ownMailAddresses.contains mailAddress
    let status :=
      if isOwnAttendee then CalendarAttendeeStatus.ACCEPTED
      else CalendarAttendeeStatus.ADDED
    addGuestStepAutoJoin
      (addGuestStepOrganizer isOwnAttendee mailAddress
        (addGuestStepStatus mailAddress status
          (addGuestStepDropOwn isOwnAttendee
            (addGuestStepRoster isOwnAttendee mailAddress s))))

/-- Embeds deleteExcludedDates: clears the exclusion list of the draft rule
when a rule is present. -/
def deleteExcludedDates (s : VMState) : VMState :=
  match s.repeatData with
  | none => s
  | some r => { s with repeatData := some { r with excludedDates := [] } }

/-- Exclusion list of an optional draft rule, empty when no rule is present. -/
def excludedDatesOf (repeatData : Option RepeatData) : List Int :=
  (repeatData.map (fun r => r.excludedDates)).getD []

/-- Embeds onRepeatPeriodSelected: no op when the frequency is unchanged;
clearing the rule for a null period; otherwise updating the frequency and
invalidating the exclusions, or creating a fresh default rule. -/
def onRepeatPeriodSelected (s : VMState) (repeatPeriod : Option RepeatPeriod) :
    VMState :=
  match s.repeatData, repeatPeriod with
  | some r, some p =>
      if r.frequency = p then s
      else deleteExcludedDates { s with repeatData := some { r with frequency := p } }
  | some _, none => { s with repeatData := none }
  | none, none => { s with repeatData := none }
  | none, some p =>
      let fresh : RepeatData :=
        { interval := 1, endType := EndType.Never, endValue := 1,
          frequency := p, excludedDates := [] }
      { s with repeatData := some fresh }

/-- Embeds onEndOccurencesSelected: only under the Count end policy and on an
actual change; updates the end value and invalidates the exclusions. -/
def onEndOccurencesSelected (s : VMState) (endValue : Int) : VMState :=
  match s.repeatData with
  | some r =>
      if r.endType = EndType.Count ∧ r.endValue ≠ endValue then
        deleteExcludedDates { s with repeatData := some { r with endValue := endValue } }
      else s
  | none => s

/-- Embeds onRepeatEndDateSelected: only under the UntilDate end policy and on
an actual change of the end instant; updates the end value and invalidates the
exclusions. -/
def onRepeatEndDateSelected (s : VMState) (endDate : Int) : VMState :=
  match s.repeatData with
  | some r =>
      if r.endType = EndType.UntilDate ∧ r.endValue ≠ endDate then
        deleteExcludedDates { s with repeatData := some { r with endValue := endDate } }
      else s
  | none => s

/-- Embeds onRepeatIntervalChanged: on an actual change updates the interval
and invalidates the exclusions. -/
def onRepeatIntervalChanged (s : VMState) (interval : Int) : VMState :=
  match s.repeatData with
  | some r =>
      if r.interval ≠ interval then
        deleteExcludedDates { s with repeatData := some { r with interval := interval } }
      else s
  | none => s

/-- Embeds onRepeatEndTypeChanged: on an actual change updates the end policy,
invalidates the exclusions and reseeds the end value: one month out for the
UntilDate policy, the default count 1 otherwise. -/
def onRepeatEndTypeChanged (s : VMState) (endType : EndType) : VMState :=
  match s.repeatData with
  | some r =>
      if r.endType ≠ endType then
        let seeded :=
          if endType = EndType.UntilDate then addOneMonthInstant s.now else 1
        let updated : RepeatData :=
          { r with endType := endType, endValue := seeded, excludedDates := [] }
        { s with repeatData := some updated }
      else s
  | none => s

/-- Embeds setStartDate: a no op for an unchanged date; a date before the
minimum supported year is clamped to the current year (thisYear is the wall
clock year) leaving everything else untouched; otherwise the end date is
shifted by the same day delta, the start date adopted and the exclusions
invalidated. -/
def setStartDate (s : VMState) (date : Int) (thisYear : Int) : VMState :=
  if date = s.startDate then s
  else if yearOfInstant date < TIMESTAMP_ZERO_YEAR then
    { s with startDate := setFullYearInstant date thisYear }
  else
    let diff := getDiffInDays s.startDate date
    deleteExcludedDates
      { s with endDate := s.endDate + diff * minutesPerDay, startDate := date }

/-- One observable call to an external collaborator: the notification
distributor (sendInvite, sendCancellation, sendUpdate, sendResponse together
with the disposal of the transient response roster) or the calendar store
(createEvent, updateEvent). -/
inductive Action where
  | inviteSent (event : CalendarEvent) (roster : List Recipient)
  | cancellationSent (event : CalendarEvent) (roster : List Recipient)
  | updateSent (event : CalendarEvent) (roster : List Recipient)
  | responseSent (event : CalendarEvent) (organizerAddress : String)
      (status : CalendarAttendeeStatus)
  | responseRosterDisposed
  | eventCreated (event : CalendarEvent)
  | eventUpdated (event : CalendarEvent)
deriving DecidableEq, Repr

/-- Errors surfaced by the save flow: user correctable errors (UserError),
the business feature entitlement error and assertion failures
(ProgrammingError from assertNotNull). -/
inductive SaveError where
  | userError (msg : String)
  | businessFeatureRequired (msg : String)
  | assertionFailed (msg : String)
deriving DecidableEq, Repr

/-- Answer of the ask for updates confirmation callback. -/
inductive Answer where
  | yes
  | no
  | cancel
deriving DecidableEq, Repr

/-- True exactly for the calendar store persistence calls. -/
def isPersistAction : Action → Bool
  | Action.eventCreated _ => true
  | Action.eventUpdated _ => true
  | _ => false

/-- Embeds _saveEvent as the trace of persistence calls it performs: an
external account resolves successfully without any store call; otherwise the
event is created when no persisted original exists and updated otherwise.
The selected calendar is asserted non null for the group root. -/
def saveEvent (s : VMState) (newEvent : CalendarEvent) :
    Except SaveError (List Action) :=
  if s.accountType = AccountType.EXTERNAL then Except.ok []
  else
    match s.selectedCalendar with
    | none => Except.error (SaveError.assertionFailed "selectedCalendar")
    | some _ =>
        match s.existingEvent with
        | none => Except.ok [Action.eventCreated newEvent]
        | some existing =>
            if existing.evId.isSome then Except.ok [Action.eventUpdated newEvent]
            else Except.ok [Action.eventCreated newEvent]

/-- Embeds _sendInvite: when the materialized event carries attendees in the
added pending state, one invite is dispatched to the invite roster and, upon
its resolution, those attendees are flipped to needs action both on the event
object (which is later persisted) and in the status ledger. -/
def sendInviteStep (s : VMState) (event : CalendarEvent) :
    List Action × CalendarEvent × VMState :=
  let newAttendees :=
    event.attendees.filter (fun a => a.status == CalendarAttendeeStatus.ADDED)
  if newAttendees.isEmpty then ([], event, s)
  else
    let flipped :=
      { event with attendees :=
          event.attendees.map (fun a =>
            if a.status == CalendarAttendeeStatus.ADDED then
              { a with status := CalendarAttendeeStatus.NEEDS_ACTION }
            else a) }
    let ledger :=
      newAttendees.foldl
        (fun m a => addMapEntry m a.address.address CalendarAttendeeStatus.NEEDS_ACTION)
        s.guestStatuses
    ([Action.inviteSent event s.inviteRecipients], flipped,
      { s with guestStatuses := ledger })

/-- Embeds _hasUpdatableAttendees: the update roster is non empty. -/
def hasUpdatableAttendees (s : VMState) : Bool :=
  !s.updateRecipients.isEmpty

/-- Embeds isConfidential: all three rosters are confidential. -/
def isConfidential (s : VMState) : Bool :=
  s.inviteConfidential && s.updateConfidential && s.cancelConfidential

/-- Embeds hasInsecurePasswords: only meaningful for confidential sends, never
for invites received from others, otherwise delegated to the three rosters. -/
def hasInsecurePasswords (s : VMState) : Bool :=
  if !isConfidential s then false
  else if s.eventType == EventType.INVITE then false
  else
    s.inviteInsecurePasswords || s.updateInsecurePasswords ||
      s.cancelInsecurePasswords

/-- Embeds containsExternalRecipients, delegated to the three rosters. -/
def containsExternalRecipients (s : VMState) : Bool :=
  s.inviteHasExternalRecipients || s.updateHasExternalRecipients ||
    s.cancelHasExternalRecipients

/-- Embeds shouldShowSendInviteNotAvailable: free accounts always lack the
entitlement, external accounts always have it, everyone else needs the
business feature or a new paid plan. -/
def shouldShowSendInviteNotAvailable (s : VMState) : Bool :=
  if s.accountType = AccountType.FREE then true
  else if s.accountType = AccountType.EXTERNAL then false
  else !s.hasBusinessFeature && !s.isNewPaidPlan

/-- The update question resolution of _sendNotificationAndSave: short
circuited to yes by the force updates flag and to no when no updatable
attendees exist, otherwise the askForUpdates answer. -/
def updateResponseOf (s : VMState) (userAnswer : Answer) : Answer :=
  if hasUpdatableAttendees s then
    if s.isForceUpdates then Answer.yes else userAnswer
  else Answer.no

/-- The insecure password confirmation step of _sendNotificationAndSave: the
question is asked only when there are new invite recipients and the send is
confidential to insecure external recipients; passwordAnswer is the value the
askInsecurePassword callback resolves to. -/
def passwordCheckOf (s : VMState) (passwordAnswer : Bool) : Bool :=
  if !s.inviteRecipients.isEmpty then
    if hasInsecurePasswords s && containsExternalRecipients s then passwordAnswer
    else true
  else true

/-- Embeds _sendNotificationAndSave. The two user confirmation callbacks are
passed as the values they resolve to: userAnswer for askForUpdates and
passwordAnswer for askInsecurePassword. The update question is short
circuited to yes by the force updates flag and to no when no updatable
attendees exist; a cancel answer aborts with a not saved result; the
entitlement is re-checked late; the insecure password confirmation is asked
only for new invite recipients; then the four dispatch steps run in fixed
order: invite, cancellation, persistence, update. -/
def sendNotificationAndSave (s : VMState) (userAnswer : Answer)
    (passwordAnswer : Bool) (newEvent : CalendarEvent) :
    Except SaveError (Bool × List Action × VMState) :=
  if updateResponseOf s userAnswer = Answer.cancel then Except.ok (false, [], s)
  else if shouldShowSendInviteNotAvailable s &&
      (updateResponseOf s userAnswer == Answer.yes || !s.inviteRecipients.isEmpty ||
        !s.cancelRecipients.isEmpty) then
    Except.error (SaveError.businessFeatureRequired "businessFeatureRequiredInvite_msg")
  else if !passwordCheckOf s passwordAnswer then Except.ok (false, [], s)
  else
    match saveEvent (sendInviteStep s newEvent).snd.snd
        (sendInviteStep s newEvent).snd.fst with
    | Except.error e => Except.error e
    | Except.ok saveTrace =>
        Except.ok (true,
          (sendInviteStep s newEvent).fst ++
            (if !(sendInviteStep s newEvent).snd.snd.cancelRecipients.isEmpty then
              [Action.cancellationSent (sendInviteStep s newEvent).snd.fst
                (sendInviteStep s newEvent).snd.snd.cancelRecipients]
            else []) ++
            saveTrace ++
            (if updateResponseOf s userAnswer = Answer.yes then
              [Action.updateSent (sendInviteStep s newEvent).snd.fst
                (sendInviteStep s newEvent).snd.snd.updateRecipients]
            else []),
          (sendInviteStep s newEvent).snd.snd)

/-- Embeds _respondToOrganizerAndSave: the self attendee is looked up on the
original event, the desired status in the ledger; when actionable and
different from the original status, one response carrying the desired status
is sent to the organizer through a transient response roster which is then
disposed; in every case the event is persisted afterwards. -/
def respondToOrganizerAndSave (s : VMState) (existingEvent : CalendarEvent)
    (newEvent : CalendarEvent) : Except SaveError (Bool × List Action × VMState) :=
  match findAttendeeInAddresses (fun a => a.address.address) existingEvent.attendees
      s.ownMailAddresses with
  | none =>
      match saveEvent s newEvent with
      | Except.error e => Except.error e
      | Except.ok saveTrace => Except.ok (true, saveTrace, s)
  | some ownA =>
      if lookupStatus s.guestStatuses ownA.address.address ≠
            some CalendarAttendeeStatus.NEEDS_ACTION ∧
          some ownA.status ≠ lookupStatus s.guestStatuses ownA.address.address then
        match lookupStatus s.guestStatuses ownA.address.address with
        | none => Except.error (SaveError.assertionFailed "selectedOwnAttendeeStatus")
        | some desired =>
            match existingEvent.organizer with
            | none => Except.error (SaveError.assertionFailed "organizer")
            | some organizer =>
                match saveEvent s newEvent with
                | Except.error e => Except.error e
                | Except.ok saveTrace =>
                    Except.ok (true,
                      Action.responseSent newEvent organizer.address desired ::
                        Action.responseRosterDisposed :: saveTrace, s)
      else
        match saveEvent s newEvent with
        | Except.error e => Except.error e
        | Except.ok saveTrace => Except.ok (true, saveTrace, s)

/-- Modelled from the spec: generateUid of CommonCalendarUtils (not under src),
a stable unique identity derived deterministically from the owning calendar
identity and the creation time. -/
def generateUid (groupId : String) (timestamp : Int) : String :=
  groupId ++ toString timestamp

/-- Embeds createRepeatRule: serializes the draft recurrence into a persisted
repeat rule; a zero interval falls back to 1; a count below 1 degrades the end
policy to never; an until date is normalized to the following day boundary and
must not precede the event start. The zone is the UTC model zone. -/
def createRepeatRule (s : VMState) (newEventStart : Int) (r : RepeatData) :
    Except SaveError CalendarRepeatRule :=
  let interval := if r.interval = 0 then 1 else r.interval
  let base : CalendarRepeatRule :=
    { frequency := r.frequency, interval := interval, endType := r.endType,
      endValue := none, timeZone := "UTC", excludedDates := r.excludedDates }
  match r.endType with
  | EndType.Never => Except.ok base
  | EndType.Count =>
      if r.endValue < 1 then Except.ok { base with endType := EndType.Never }
      else Except.ok { base with endValue := some r.endValue }
  | EndType.UntilDate =>
      let repeatEndDate := dayAlign r.endValue + minutesPerDay
      if repeatEndDate < newEventStart then
        Except.error (SaveError.userError "startAfterEnd_label")
      else
        let stored := if s.allDay then dayAlign repeatEndDate else repeatEndDate
        Except.ok { base with endValue := some stored }

/-- Modelled from the spec: checkEventValidity of CalendarUtils (not under
src): the end must lie strictly after the start and no component may predate
the minimum supported year; in this model every instant is a valid date. -/
inductive CalendarEventValidity where
  | InvalidEndBeforeStart
  | InvalidPre1970
  | Valid
deriving DecidableEq, Repr

/-- Modelled from the spec: the validity check run at the end of
materialization. -/
def checkEventValidity (e : CalendarEvent) : CalendarEventValidity :=
  if e.endTime ≤ e.startTime then CalendarEventValidity.InvalidEndBeforeStart
  else if yearOfInstant e.startTime < TIMESTAMP_ZERO_YEAR then
    CalendarEventValidity.InvalidPre1970
  else CalendarEventValidity.Valid

/-- Empty event created by createCalendarEvent() for a fresh draft. -/
def defaultCalendarEvent : CalendarEvent :=
  { evId := none, ownerGroup := none, startTime := 0, endTime := 0,
    summary := "", description := "", location := "",
    invitedConfidentially := none, uid := none, sequence := 0,
    organizer := none, attendees := [], repeatRule := none }

/-- Embeds the materialization method (source name: underscore followed by
initia and lizeNewEvent joined): clones the original or starts fresh, bumps
the sequence counter (forced for an own event), computes start and end per
the all day versus timed representation, carries over the draft fields,
preserves or generates the identity, serializes the recurrence and the
composed attendee projection, and fails fast on the validity checks. -/
def initNewEvent (s : VMState) : Except SaveError CalendarEvent :=
  let base := s.existingEvent.getD defaultCalendarEvent
  let newSequence := incrementSequence base.sequence (s.eventType == EventType.OWN)
  let ev0 := { base with sequence := newSequence }
  let datesResult : Except SaveError (Int × Int) :=
    if s.allDay then
      Except.ok (dayAlign s.startDate, dayAlign s.endDate + minutesPerDay)
    else
      match s.startTime, s.endTime with
      | some st, some et =>
          Except.ok (dayAlign s.startDate + st.fst * 60 + st.snd,
            dayAlign s.endDate + et.fst * 60 + et.snd)
      | _, _ => Except.error (SaveError.userError "timeFormatInvalid_msg")
  match datesResult with
  | Except.error e => Except.error e
  | Except.ok dates =>
      let uidResult : Except SaveError (Option String) :=
        match s.existingEvent with
        | some existing =>
            match existing.uid with
            | some u => Except.ok (some u)
            | none =>
                match s.selectedCalendar with
                | none => Except.error (SaveError.assertionFailed "selectedCalendar")
                | some cal => Except.ok (some (generateUid cal.groupId s.now))
        | none =>
            match s.selectedCalendar with
            | none => Except.error (SaveError.assertionFailed "selectedCalendar")
            | some cal => Except.ok (some (generateUid cal.groupId s.now))
      match uidResult with
      | Except.error e => Except.error e
      | Except.ok uid =>
          let repeatResult : Except SaveError (Option CalendarRepeatRule) :=
            match s.repeatData with
            | none => Except.ok none
            | some r =>
                match createRepeatRule s dates.fst r with
                | Except.error e => Except.error e
                | Except.ok rule => Except.ok (some rule)
          match repeatResult with
          | Except.error e => Except.error e
          | Except.ok rule =>
              let newEvent : CalendarEvent :=
                { ev0 with
                  startTime := dates.fst
                  endTime := dates.snd
                  description := s.note
                  summary := s.summary
                  location := s.location
                  invitedConfidentially := some (isConfidential s)
                  uid := uid
                  repeatRule := rule
                  attendees := (attendeesList s).map (fun g =>
                    { address := g.address, status := g.status })
                  organizer := s.organizer }
              match checkEventValidity newEvent with
              | CalendarEventValidity.InvalidEndBeforeStart =>
                  Except.error (SaveError.userError "startAfterEnd_label")
              | CalendarEventValidity.InvalidPre1970 =>
                  Except.error (SaveError.userError "pre1970Start_msg")
              | CalendarEventValidity.Valid => Except.ok newEvent

/-- Embeds the body of saveAndSend (the inner send function run under the
single flight guard). It materializes the candidate event and branches per
the role classification: own event with a forced update or a relevant change
runs the notify and save protocol, an invite runs the respond to organizer
protocol, everything else persists passively. The result is the save result
together with the trace of external calls and the resulting state. Roster
resolution is awaited first and has no effect on the modelled state. -/
def saveAndSendBody (s0 : VMState) (userAnswer : Answer) (passwordAnswer : Bool) :
    Except SaveError (Bool × List Action × VMState) :=
  match initNewEvent s0 with
  | Except.error e => Except.error e
  | Except.ok newEvent =>
      if s0.eventType == EventType.OWN &&
          (s0.isForceUpdates || hasChanges s0.existingEvent newEvent) then
        sendNotificationAndSave s0 userAnswer passwordAnswer newEvent
      else if s0.eventType == EventType.INVITE then
        match s0.existingEvent with
        | none => Except.error (SaveError.assertionFailed "existingEvent")
        | some existing => respondToOrganizerAndSave s0 existing newEvent
      else
        match saveEvent s0 newEvent with
        | Except.error e => Except.error e
        | Except.ok saveTrace => Except.ok (true, saveTrace, s0)

/-- Embeds the exit of saveAndSend: the guard set before the body and cleared
in the finally clause on both the value and the error path. -/
def saveAndSend (s : VMState) (userAnswer : Answer) (passwordAnswer : Bool) :
    Except SaveError Bool × List Action × VMState :=
  if s.processing then (Except.ok false, [], s)
  else
    match saveAndSendBody { s with processing := true } userAnswer passwordAnswer with
    | Except.ok r => (Except.ok r.fst, r.snd.fst, { r.snd.snd with processing := false })
    | Except.error e =>
        (Except.error e, [],
          { { s with processing := true } with processing := false })

/-- Embeds the exclusion insertion of excludeThisOccurrence: the instant is
spliced in right before the first existing exclusion at or after it, or
appended when every existing exclusion lies before it. -/
def insertExcludedDate (excludedDates : List Int) (timeToInsert : Int) :
    List Int :=
  match excludedDates.findIdx? (fun d => timeToInsert ≤ d) with
  | none => excludedDates ++ [timeToInsert]
  | some i => excludedDates.take i ++ timeToInsert :: excludedDates.drop i

/-- Embeds excludeThisOccurrence. The root of the series is loaded from the
entity store (passed as loadedRoot; for a non repeating clicked instance the
instance itself is the root), deep copied, the start instant of the clicked
instance is inserted into its exclusion list, and the copy is persisted via
updateEvent; the view model state is returned unchanged because only the copy
is touched. The result is the persisted root, or none on the early returns. -/
def excludeThisOccurrence (s : VMState) (loadedRoot : Option CalendarEvent) :
    Option CalendarEvent × VMState :=
  match s.existingEvent with
  | none => (none, s)
  | some existing =>
      match s.selectedCalendar with
      | none => (none, s)
      | some _ =>
          let originalEvent :=
            if existing.repeatRule.isSome then loadedRoot else some existing
          match originalEvent with
          | none => (none, s)
          | some original =>
              match original.repeatRule with
              | none => (none, s)
              | some rule =>
                  let newExcluded :=
                    insertExcludedDate rule.excludedDates existing.startTime
                  let newRule := { rule with excludedDates := newExcluded }
                  let persisted := { original with repeatRule := some newRule }
                  match existing.ownerGroup with
                  | none => (none, s)
                  | some g =>
                      match lookupCalendar s.calendars g with
                      | none => (none, s)
                      | some _ => (some persisted, s)

/-- The pointwise comparison of two sorted exclusion lists decides exactly
list equality. -/
theorem areExcludedDatesEqual_iff :
    ∀ e1 e2 : List Int, areExcludedDatesEqual e1 e2 = true ↔ e1 = e2 := by
  intro e1
  induction e1 with
  | nil =>
      intro e2
      cases e2 <;> simp [areExcludedDatesEqual]
  | cons x xs ih =>
      intro e2
      cases e2 with
      | nil => simp [areExcludedDatesEqual]
      | cons y ys =>
          have hih := ih ys
          simp only [areExcludedDatesEqual, List.length_cons, List.zip_cons_cons,
            List.all_cons, Bool.and_eq_true, beq_iff_eq, Nat.add_right_cancel_iff,
            List.cons.injEq] at hih ⊢
          constructor
          · rintro ⟨hlen, hxy, hall⟩
            exact ⟨hxy, hih.mp ⟨hlen, hall⟩⟩
          · rintro ⟨hxy, hxs⟩
            have h2 := hih.mpr hxs
            exact ⟨h2.1, hxy, h2.2⟩

/-- The field by field repeat rule comparison decides exactly structural
equality of the optional rules. -/
theorem areRepeatRulesEqual_iff (r1 r2 : Option CalendarRepeatRule) :
    areRepeatRulesEqual r1 r2 = true ↔ r1 = r2 := by
  cases r1 with
  | none =>
      cases r2 with
      | none => simp [areRepeatRulesEqual, areExcludedDatesEqual]
      | some b => simp [areRepeatRulesEqual]
  | some a =>
      cases r2 with
      | none => simp [areRepeatRulesEqual]
      | some b =>
          obtain ⟨f1, i1, et1, ev1, tz1, ex1⟩ := a
          obtain ⟨f2, i2, et2, ev2, tz2, ex2⟩ := b
          simp [areRepeatRulesEqual, areExcludedDatesEqual_iff,
            CalendarRepeatRule.mk.injEq]
          tauto

/-- The repeat rule comparison is reflexive. -/
theorem areRepeatRulesEqual_self (r : Option CalendarRepeatRule) :
    areRepeatRulesEqual r r = true :=
  (areRepeatRulesEqual_iff r r).mpr rfl

/-- The boolean equality instance of the comparison key pairs agrees with the
decidable equality based instance; needed to transport the permutation
characterization of isPerm. -/
theorem beqProdInstanceEq :
    (instBEqProd : BEq (CalendarAttendeeStatus × String)) = instBEqOfDecidableEq := by
  have h : ∀ a b : CalendarAttendeeStatus × String, (a == b) = decide (a = b) := by
    intro a b
    by_cases hab : a = b
    · subst hab; simp
    · simp [hab]
  exact congrArg BEq.mk (funext fun a => funext fun b => h a b)

/-- The modelled attendee list comparison decides exactly permutation
equivalence of the comparison keys. -/
theorem attendeeListsEqual_iff (a1 a2 : List CalendarEventAttendee) :
    attendeeListsEqual a1 a2 = true ↔
      (a1.map attendeeComparisonKey).Perm (a2.map attendeeComparisonKey) := by
  unfold attendeeListsEqual
  rw [show (instBEqProd : BEq (CalendarAttendeeStatus × String)) =
    instBEqOfDecidableEq from beqProdInstanceEq]
  exact List.isPerm_iff

/-- The attendee list comparison is reflexive. -/
theorem attendeeListsEqual_self (a : List CalendarEventAttendee) :
    attendeeListsEqual a a = true :=
  (attendeeListsEqual_iff a a).mpr (List.Perm.refl _)

/-- C1: role classification is a deterministic function of its inputs; with no
original event it returns OwnEvent with the default sending address as the
organizer and all own addresses as possible organizers; with an original event
whose owning calendar is visible and shared it returns SharedReadWrite exactly
when the editor holds write capability on that group and SharedReadOnly
otherwise, the organizer copied unchanged and the possible organizers being
that singleton or empty when the original has no organizer. -/
theorem claim_C1
    (calendars : List (String × CalendarInfo)) (ownMailAddresses : List String)
    (defaultSenderAddress : String) (senderName : String → String)
    (hasWriteCapabilityOnGroup : String → Bool) :
    (initEventTypeAndOrganizers none calendars ownMailAddresses
        defaultSenderAddress senderName hasWriteCapabilityOnGroup =
      { eventType := EventType.OWN
        organizer := some (addressToMailAddress senderName defaultSenderAddress)
        possibleOrganizers := ownMailAddresses.map (addressToMailAddress senderName) })
    ∧ (∀ (e : CalendarEvent) (g : String) (ci : CalendarInfo),
        e.ownerGroup = some g → lookupCalendar calendars g = some ci →
        ci.shared = true →
        initEventTypeAndOrganizers (some e) calendars ownMailAddresses
            defaultSenderAddress senderName hasWriteCapabilityOnGroup =
          { eventType :=
              if hasWriteCapabilityOnGroup ci.groupId then EventType.SHARED_RW
              else EventType.SHARED_RO
            organizer := e.organizer
            possibleOrganizers := e.organizer.toList }) := by
  constructor
  · simp [initEventTypeAndOrganizers, ownPossibleOrganizers]
  · intro e g ci hg hci hsh
    simp [initEventTypeAndOrganizers, hg, hci, hsh]

/-- Sample event on a shared calendar used by the C1 witness. -/
def c1Event : CalendarEvent :=
  { defaultCalendarEvent with
    ownerGroup := some "grp1"
    organizer := some { name := "Other", address := "other@example.com" } }

/-- Sample calendar map used by the C1 witness. -/
def c1Calendars : List (String × CalendarInfo) :=
  [("grp1", { groupId := "grp1", shared := true })]

/-- Witness for C1 at concrete inputs: a shared calendar with write capability
classifies as SharedReadWrite with the original organizer kept, and the no
event case yields OwnEvent with the default sender. -/
theorem claim_C1_witness :
    (initEventTypeAndOrganizers none c1Calendars ["me@example.com"]
        "me@example.com" (fun _ => "Me") (fun _ => true) =
      { eventType := EventType.OWN
        organizer := some { name := "Me", address := "me@example.com" }
        possibleOrganizers := [{ name := "Me", address := "me@example.com" }] })
    ∧ (initEventTypeAndOrganizers (some c1Event) c1Calendars ["me@example.com"]
        "me@example.com" (fun _ => "Me") (fun _ => true) =
      { eventType := EventType.SHARED_RW
        organizer := some { name := "Other", address := "other@example.com" }
        possibleOrganizers := [{ name := "Other", address := "other@example.com" }] }) := by
  have h := claim_C1 c1Calendars ["me@example.com"] "me@example.com"
    (fun _ => "Me") (fun _ => true)
  have h2 := h.2 c1Event "grp1" { groupId := "grp1", shared := true } rfl rfl rfl
  exact ⟨h.1, by simpa using h2⟩

/-- Negated form of the repeat rule comparison characterization. -/
theorem areRepeatRulesEqual_eq_false_iff (r1 r2 : Option CalendarRepeatRule) :
    areRepeatRulesEqual r1 r2 = false ↔ ¬ r1 = r2 := by
  rw [← areRepeatRulesEqual_iff r1 r2]
  cases areRepeatRulesEqual r1 r2 <;> simp

/-- Negated form of the attendee comparison characterization. -/
theorem attendeeListsEqual_eq_false_iff (a1 a2 : List CalendarEventAttendee) :
    attendeeListsEqual a1 a2 = false ↔
      ¬ (a1.map attendeeComparisonKey).Perm (a2.map attendeeComparisonKey) := by
  rw [← attendeeListsEqual_iff a1 a2]
  cases attendeeListsEqual a1 a2 <;> simp

/-- The guarded organizer comparison of the diff detector collapses to the
address comparison: the reference guard can only be false when the two
organizer values coincide, in which case the addresses coincide as well. -/
theorem organizerConjCollapse (o1 o2 : Option EncryptedMailAddress) :
    ((¬ o1 = o2) ∧
        ¬ o1.map (fun o => o.address) = o2.map (fun o => o.address)) ↔
      ¬ o1.map (fun o => o.address) = o2.map (fun o => o.address) := by
  constructor
  · exact fun h => h.2
  · intro h
    exact ⟨fun he => h (by rw [he]), h⟩

/-- C2: the diff detector returns true exactly when one of the compared fields
differs: start instant, end instant, description, summary, location,
confidentiality, identity, organizer address with names ignored, the repeat
rule field by field with exclusion lists compared in order, or the attendee
collection as an order insensitive comparison of address and status pairs with
names ignored; and a candidate differing from the original only in the
sequence counter registers as unchanged. -/
theorem claim_C2 (existing candidate : CalendarEvent) :
    (hasChanges (some existing) candidate = true ↔
      (candidate.startTime ≠ existing.startTime ∨
       candidate.endTime ≠ existing.endTime ∨
       candidate.description ≠ existing.description ∨
       candidate.summary ≠ existing.summary ∨
       candidate.location ≠ existing.location ∨
       candidate.invitedConfidentially ≠ existing.invitedConfidentially ∨
       candidate.uid ≠ existing.uid ∨
       candidate.organizer.map (fun o => o.address) ≠
         existing.organizer.map (fun o => o.address) ∨
       candidate.repeatRule ≠ existing.repeatRule ∨
       ¬ (candidate.attendees.map attendeeComparisonKey).Perm
           (existing.attendees.map attendeeComparisonKey)))
    ∧ ∀ n : Nat, hasChanges (some existing) { existing with sequence := n } = false := by
  constructor
  · unfold hasChanges
    simp only [Bool.or_eq_true, bne_iff_ne, Bool.not_eq_true', Bool.and_eq_true,
      areRepeatRulesEqual_eq_false_iff, attendeeListsEqual_eq_false_iff, ne_eq]
    rw [organizerConjCollapse]
    tauto
  · intro n
    unfold hasChanges
    simp [areRepeatRulesEqual_self, attendeeListsEqual_self]

/-- Concrete view model state used to instantiate the hypothesis bearing
theorems: a fresh own event on an own calendar, all rosters empty. Epoch day
19000 falls in the year 2022. -/
def baseState : VMState :=
  { ownMailAddresses := ["me@example.com"]
    senderName := "Me"
    senderAddress := "me@example.com"
    eventType := EventType.OWN
    organizer := some { name := "Me", address := "me@example.com" }
    possibleOrganizers := [{ name := "Me", address := "me@example.com" }]
    existingEvent := none
    inviteRecipients := []
    updateRecipients := []
    cancelRecipients := []
    guestStatuses := []
    ownAttendee := none
    startDate := 19000 * 1440
    endDate := 19000 * 1440
    startTime := some (10, 0)
    endTime := some (11, 0)
    allDay := false
    repeatData := none
    summary := ""
    location := ""
    note := ""
    processing := false
    isForceUpdates := false
    hasBusinessFeature := true
    isNewPaidPlan := true
    accountType := AccountType.PREMIUM
    selectedCalendar := some { groupId := "grp1", shared := false }
    calendars := [("grp1", { groupId := "grp1", shared := false })]
    inviteConfidential := false
    updateConfidential := false
    cancelConfidential := false
    inviteInsecurePasswords := false
    updateInsecurePasswords := false
    cancelInsecurePasswords := false
    inviteHasExternalRecipients := false
    updateHasExternalRecipients := false
    cancelHasExternalRecipients := false
    responseTo := none
    now := 19000 * 1440 }

/-- Draft recurrence rule with one exclusion, end policy never. -/
def c3Rule : RepeatData :=
  { frequency := RepeatPeriod.DAILY, interval := 1, endType := EndType.Never,
    endValue := 1, excludedDates := [19005 * 1440] }

/-- Draft whose rule carries a nonempty exclusion list. -/
def c3State : VMState :=
  { baseState with repeatData := some c3Rule }

/-- Counterexample to C3 as stated: on a rule with a nonempty exclusion list
and end policy never, invoking the occurrence count end value setter with the
value 2, different from the current end value 1, is a complete no op, so the
exclusion list stays nonempty instead of becoming empty. -/
theorem claim_C3_counterexample :
    c3State.repeatData = some c3Rule ∧
    c3Rule.excludedDates ≠ [] ∧
    (2 : Int) ≠ c3Rule.endValue ∧
    onEndOccurencesSelected c3State 2 = c3State ∧
    excludedDatesOf (onEndOccurencesSelected c3State 2).repeatData ≠ [] := by
  refine ⟨rfl, by decide, by decide, by rfl, by decide⟩

/-- Projection helpers: deleting the exclusions touches only the repeat data. -/
theorem deleteExcludedDates_startDate (s : VMState) :
    (deleteExcludedDates s).startDate = s.startDate := by
  cases h : s.repeatData <;> simp [deleteExcludedDates, h]

/-- The end date survives the exclusion invalidation. -/
theorem deleteExcludedDates_endDate (s : VMState) :
    (deleteExcludedDates s).endDate = s.endDate := by
  cases h : s.repeatData <;> simp [deleteExcludedDates, h]

/-- After the exclusion invalidation the exclusion list is empty. -/
theorem deleteExcludedDates_empty (s : VMState) :
    excludedDatesOf (deleteExcludedDates s).repeatData = [] := by
  cases h : s.repeatData <;> simp [deleteExcludedDates, h, excludedDatesOf]

/-- C3 (amended): on a draft rule with a nonempty exclusion list, invoking the
frequency setter with a different (or no) period, the interval setter with a
different interval, or the end type setter with a different end policy leaves
the exclusion list empty; the end value setters do so when the end policy of
the rule matches the setter (count setter under the after occurrences policy,
end date setter under the until date policy) and the value differs; and
invoking any of the setters with the current value leaves the state, rule and
exclusion list included, completely unchanged. -/
theorem claim_C3 (s : VMState) (r : RepeatData)
    (hrep : s.repeatData = some r) (_hne : r.excludedDates ≠ []) :
    (∀ p : RepeatPeriod, p ≠ r.frequency →
        excludedDatesOf (onRepeatPeriodSelected s (some p)).repeatData = []) ∧
    (excludedDatesOf (onRepeatPeriodSelected s none).repeatData = []) ∧
    (∀ i : Int, i ≠ r.interval →
        excludedDatesOf (onRepeatIntervalChanged s i).repeatData = []) ∧
    (∀ et : EndType, et ≠ r.endType →
        excludedDatesOf (onRepeatEndTypeChanged s et).repeatData = []) ∧
    (r.endType = EndType.Count → ∀ v : Int, v ≠ r.endValue →
        excludedDatesOf (onEndOccurencesSelected s v).repeatData = []) ∧
    (r.endType = EndType.UntilDate → ∀ v : Int, v ≠ r.endValue →
        excludedDatesOf (onRepeatEndDateSelected s v).repeatData = []) ∧
    (onRepeatPeriodSelected s (some r.frequency) = s) ∧
    (onRepeatIntervalChanged s r.interval = s) ∧
    (onRepeatEndTypeChanged s r.endType = s) ∧
    (onEndOccurencesSelected s r.endValue = s) ∧
    (onRepeatEndDateSelected s r.endValue = s) := by
  refine ⟨?_, ?_, ?_, ?_, ?_, ?_, ?_, ?_, ?_, ?_, ?_⟩
  · intro p hp
    have hfp : ¬ r.frequency = p := fun h2 => hp h2.symm
    simp [onRepeatPeriodSelected, hrep, hfp, deleteExcludedDates_empty]
  · simp [onRepeatPeriodSelected, hrep, excludedDatesOf]
  · intro i hi
    have hir : r.interval ≠ i := fun h2 => hi h2.symm
    simp [onRepeatIntervalChanged, hrep, hir, deleteExcludedDates_empty]
  · intro et het
    have hetr : r.endType ≠ et := fun h2 => het h2.symm
    simp [onRepeatEndTypeChanged, hrep, hetr, excludedDatesOf]
  · intro hct v hv
    have hvr : r.endValue ≠ v := fun h2 => hv h2.symm
    simp [onEndOccurencesSelected, hrep, hct, hvr, deleteExcludedDates_empty]
  · intro hud v hv
    have hvr : r.endValue ≠ v := fun h2 => hv h2.symm
    simp [onRepeatEndDateSelected, hrep, hud, hvr, deleteExcludedDates_empty]
  · simp [onRepeatPeriodSelected, hrep]
  · simp [onRepeatIntervalChanged, hrep]
  · simp [onRepeatEndTypeChanged, hrep]
  · simp [onEndOccurencesSelected, hrep]
  · simp [onRepeatEndDateSelected, hrep]

/-- Witness for C3 at a concrete draft: a different interval empties the
exclusions and re-setting the current end value changes nothing. -/
theorem claim_C3_witness :
    excludedDatesOf (onRepeatIntervalChanged c3State 2).repeatData = [] ∧
    onEndOccurencesSelected c3State 1 = c3State := by
  have h := claim_C3 c3State c3Rule rfl (by decide)
  exact ⟨h.2.2.1 2 (by decide), h.2.2.2.2.2.2.2.2.2.1⟩

/-- Day extraction distributes over adding whole days. -/
theorem dayOfInstant_add_days (t d : Int) :
    dayOfInstant (t + d * minutesPerDay) = dayOfInstant t + d := by
  unfold dayOfInstant minutesPerDay
  exact Int.add_mul_ediv_right t d (by norm_num)

/-- C4: for a new start date differing from the current one, setStartDate
shifts the end date by the same day delta as the start date, preserving the
duration in days, and invalidates all recurrence exclusions; a start date
landing before the minimum supported year is instead clamped to the current
year (month, day and time of day kept), leaving everything else unchanged. -/
theorem claim_C4 (s : VMState) (date thisYear : Int) (h : date ≠ s.startDate) :
    (yearOfInstant date < TIMESTAMP_ZERO_YEAR →
        setStartDate s date thisYear =
          { s with startDate := setFullYearInstant date thisYear }) ∧
    (TIMESTAMP_ZERO_YEAR ≤ yearOfInstant date →
        (setStartDate s date thisYear).startDate = date ∧
        (setStartDate s date thisYear).endDate =
          s.endDate + (dayOfInstant date - dayOfInstant s.startDate) * minutesPerDay ∧
        dayOfInstant (setStartDate s date thisYear).endDate - dayOfInstant date =
          dayOfInstant s.endDate - dayOfInstant s.startDate ∧
        excludedDatesOf (setStartDate s date thisYear).repeatData = []) := by
  constructor
  · intro hyear
    simp [setStartDate, h, hyear]
  · intro hyear
    have hnot : ¬ yearOfInstant date < TIMESTAMP_ZERO_YEAR := by omega
    have hs : setStartDate s date thisYear =
        deleteExcludedDates
          { s with
            endDate := s.endDate + getDiffInDays s.startDate date * minutesPerDay,
            startDate := date } := by
      simp [setStartDate, h, hnot]
    rw [hs]
    refine ⟨?_, ?_, ?_, deleteExcludedDates_empty _⟩
    · rw [deleteExcludedDates_startDate]
    · rw [deleteExcludedDates_endDate]
      simp [getDiffInDays]
    · rw [deleteExcludedDates_endDate]
      show dayOfInstant (s.endDate + getDiffInDays s.startDate date * minutesPerDay)
          - dayOfInstant date = dayOfInstant s.endDate - dayOfInstant s.startDate
      rw [dayOfInstant_add_days]
      unfold getDiffInDays
      omega

/-- Witness for C4 at concrete inputs: a valid later date shifts the start,
and a date in 1968 is clamped to the given current year. -/
theorem claim_C4_witness :
    (setStartDate baseState (19100 * 1440) 2026).startDate = 19100 * 1440 ∧
    setStartDate baseState (-(400 * 1440)) 2026 =
      { baseState with startDate := setFullYearInstant (-(400 * 1440)) 2026 } := by
  have h1 := (claim_C4 baseState (19100 * 1440) 2026 (by decide)).2 (by decide)
  have h2 := (claim_C4 baseState (-(400 * 1440)) 2026 (by decide)).1 (by decide)
  exact ⟨h1.1, h2⟩

/-- Ledger lookup on a cons cell. -/
theorem lookupStatus_cons (x : String × CalendarAttendeeStatus) (m : StatusLedger)
    (a : String) :
    lookupStatus (x :: m) a = if x.fst = a then some x.snd else lookupStatus m a := by
  by_cases h : x.fst = a
  · simp [lookupStatus, List.find?_cons_of_pos, h]
  · simp [lookupStatus, List.find?_cons_of_neg, h]

/-- Filtering out a different key does not change a ledger lookup. -/
theorem lookupStatus_filter_ne (m : StatusLedger) (k a : String) (hka : k ≠ a) :
    lookupStatus (m.filter (fun e => e.fst != k)) a = lookupStatus m a := by
  have hak : ¬ a = k := fun h => hka h.symm
  induction m with
  | nil => rfl
  | cons x rest ih =>
      by_cases hx : x.fst = k
      · have hxa : x.fst ≠ a := by rw [hx]; exact hka
        simp [List.filter_cons, hx, lookupStatus_cons, hxa, ih, hka, hak]
      · by_cases hxa : x.fst = a <;>
          simp [List.filter_cons, hx, lookupStatus_cons, hxa, ih, hka, hak]

/-- Ledger lookup after an insert or overwrite. -/
theorem lookupStatus_addMapEntry (m : StatusLedger) (k : String)
    (v : CalendarAttendeeStatus) (a : String) :
    lookupStatus (addMapEntry m k v) a = if k = a then some v else lookupStatus m a := by
  unfold addMapEntry
  rw [lookupStatus_cons]
  by_cases h : k = a
  · simp [h]
  · simp [h, lookupStatus_filter_ne m k a h]

/-- Ledger lookup of the deleted key. -/
theorem lookupStatus_deleteMapEntry_self (m : StatusLedger) (k : String) :
    lookupStatus (deleteMapEntry m k) k = none := by
  unfold deleteMapEntry lookupStatus
  rw [Option.map_eq_none', List.find?_eq_none]
  intro x hx
  have hmem := List.of_mem_filter hx
  simp only [bne_iff_ne, ne_eq, decide_eq_true_eq] at hmem
  simp [hmem]

/-- Ledger lookup after a deletion of any key. -/
theorem lookupStatus_deleteMapEntry (m : StatusLedger) (k a : String) :
    lookupStatus (deleteMapEntry m k) a = if k = a then none else lookupStatus m a := by
  by_cases h : k = a
  · rw [h]
    simp [lookupStatus_deleteMapEntry_self, h]
  · unfold deleteMapEntry
    simp [h, lookupStatus_filter_ne m k a h]

/-- Invariant tying the current organizer to the frozen possible organizer
list: whenever the organizer may not be modified, every possible organizer
already carries the address of the current organizer. It is established by
initEventTypeAndOrganizers and preserved by all operations because the guard
canModifyOrganizer only reads immutable fields and setOrganizer, the only
writer of the organizer, is guarded by it. -/
def OrganizerInv (s : VMState) : Prop :=
  canModifyOrganizer s = false →
    ∀ o ∈ s.possibleOrganizers,
      s.organizer.map (fun x => x.address) = some o.address

/-- The classification result satisfies the organizer invariant: whenever it
does not grant organizer modification, all possible organizers it returns
carry the address of the organizer it returns. -/
theorem initEventTypeAndOrganizers_OrganizerInv
    (existingEvent : Option CalendarEvent)
    (calendars : List (String × CalendarInfo)) (ownMailAddresses : List String)
    (defaultSenderAddress : String) (senderName : String → String)
    (hasWriteCapabilityOnGroup : String → Bool) :
    ((initEventTypeAndOrganizers existingEvent calendars ownMailAddresses
        defaultSenderAddress senderName hasWriteCapabilityOnGroup).eventType
          == EventType.OWN
      && !hasGuestsOf existingEvent ownMailAddresses) = false →
    ∀ o ∈ (initEventTypeAndOrganizers existingEvent calendars ownMailAddresses
        defaultSenderAddress senderName hasWriteCapabilityOnGroup).possibleOrganizers,
      (initEventTypeAndOrganizers existingEvent calendars ownMailAddresses
        defaultSenderAddress senderName
        hasWriteCapabilityOnGroup).organizer.map (fun x => x.address) =
        some o.address := by
  intro hguard o ho
  cases existingEvent with
  | none =>
      simp [initEventTypeAndOrganizers, hasGuestsOf] at hguard
  | some e =>
      cases hog : e.ownerGroup with
      | none =>
          cases heo : e.organizer with
          | none => simp [initEventTypeAndOrganizers, hog, heo] at ho
          | some og =>
              simp [initEventTypeAndOrganizers, hog, heo] at ho ⊢
              rw [ho]
      | some g =>
          cases hcal : lookupCalendar calendars g with
          | none =>
              cases heo : e.organizer with
              | none => simp [initEventTypeAndOrganizers, hog, hcal, heo] at ho
              | some og =>
                  simp [initEventTypeAndOrganizers, hog, hcal, heo] at ho ⊢
                  rw [ho]
          | some ci =>
              by_cases hsh : ci.shared
              · cases heo : e.organizer with
                | none => simp [initEventTypeAndOrganizers, hog, hcal, hsh, heo] at ho
                | some og =>
                    simp [initEventTypeAndOrganizers, hog, hcal, hsh, heo] at ho ⊢
                    rw [ho]
              · by_cases hbr : (e.organizer.isNone ||
                    (match e.organizer with
                     | some o => ownMailAddresses.contains o.address
                     | none => false) || e.attendees.isEmpty) = true
                · simp only [initEventTypeAndOrganizers, hog, Option.some_bind,
                    hcal, hsh, Bool.false_eq_true, if_false, hbr, if_true] at hguard ho ⊢
                  simp only [beq_self_eq_true, Bool.true_and] at hguard
                  have hguards : hasGuestsOf (some e) ownMailAddresses = true := by
                    revert hguard
                    cases hasGuestsOf (some e) ownMailAddresses <;> simp
                  rw [hguards] at ho
                  simp only [if_pos, List.mem_singleton] at ho
                  rw [ho]
                  rfl
                · simp only [initEventTypeAndOrganizers, hog, Option.some_bind,
                    hcal, hsh, Bool.false_eq_true, if_false, hbr] at hguard ho ⊢
                  cases heo : e.organizer with
                  | none => simp [heo] at hbr
                  | some og =>
                      simp at ho ⊢
                      have h2 := heo.symm.trans ho
                      injection h2 with h3
                      rw [h3]

/-- Any view model state assembled from a classification result satisfies the
organizer invariant. -/
theorem OrganizerInv_of_init (s : VMState)
    (calendars : List (String × CalendarInfo)) (defaultSenderAddress : String)
    (senderName : String → String) (hasWriteCapabilityOnGroup : String → Bool)
    (hres : initEventTypeAndOrganizers s.existingEvent calendars
        s.ownMailAddresses defaultSenderAddress senderName
        hasWriteCapabilityOnGroup =
      { eventType := s.eventType, organizer := s.organizer,
        possibleOrganizers := s.possibleOrganizers }) :
    OrganizerInv s := by
  intro hguard o ho
  have h := initEventTypeAndOrganizers_OrganizerInv s.existingEvent calendars
    s.ownMailAddresses defaultSenderAddress senderName hasWriteCapabilityOnGroup
  rw [hres] at h
  exact h (by simpa [canModifyOrganizer] using hguard) o ho

/-- selectGoing never touches the invite roster. -/
theorem selectGoing_inviteRecipients (s : VMState) (g : CalendarAttendeeStatus) :
    (selectGoing s g).inviteRecipients = s.inviteRecipients := by
  unfold selectGoing
  by_cases h1 : canModifyOwnAttendance s
  · simp only [h1, if_true]
    cases h2 : s.ownAttendee
    · by_cases h3 : (s.eventType == EventType.OWN) = true <;> simp [h3]
    · rfl
  · simp [h1]

/-- selectGoing never touches the organizer. -/
theorem selectGoing_organizer (s : VMState) (g : CalendarAttendeeStatus) :
    (selectGoing s g).organizer = s.organizer := by
  unfold selectGoing
  by_cases h1 : canModifyOwnAttendance s
  · simp only [h1, if_true]
    cases h2 : s.ownAttendee
    · by_cases h3 : (s.eventType == EventType.OWN) = true <;> simp [h3]
    · rfl
  · simp [h1]

/-- A ledger entry already at accepted survives selectGoing accepted. -/
theorem selectGoing_lookup_accepted (s : VMState) (a : String)
    (h : lookupStatus s.guestStatuses a = some CalendarAttendeeStatus.ACCEPTED) :
    lookupStatus (selectGoing s CalendarAttendeeStatus.ACCEPTED).guestStatuses a =
      some CalendarAttendeeStatus.ACCEPTED := by
  unfold selectGoing
  by_cases h1 : canModifyOwnAttendance s
  · simp only [h1, if_true]
    cases h2 : s.ownAttendee
    · by_cases h3 : (s.eventType == EventType.OWN) = true
      · simp only [h3, if_true]
        rw [lookupStatus_addMapEntry]
        split
        · rfl
        · exact h
      · simp [h3, h]
    · rw [lookupStatus_addMapEntry]
      split
      · rfl
      · exact h
  · simp [h1, h]

/-- A ledger entry survives selectGoing when its key differs from the own
attendee address and from the default sender address. -/
theorem selectGoing_lookup_ne (s : VMState) (g : CalendarAttendeeStatus) (a : String)
    (h1 : ∀ ow, s.ownAttendee = some ow → ow.address ≠ a)
    (h2 : s.senderAddress ≠ a) :
    lookupStatus (selectGoing s g).guestStatuses a = lookupStatus s.guestStatuses a := by
  unfold selectGoing
  by_cases hc : canModifyOwnAttendance s
  · simp only [hc, if_true]
    cases ho : s.ownAttendee with
    | none =>
        by_cases h3 : (s.eventType == EventType.OWN) = true
        · simp only [h3, if_true]
          rw [lookupStatus_addMapEntry]
          simp [h2]
        · simp [h3]
    | some ow =>
        simp only
        rw [lookupStatus_addMapEntry]
        simp [h1 ow ho]
  · simp [hc]

/-- setOrganizer never touches the invite roster. -/
theorem setOrganizer_inviteRecipients (s : VMState) (o : EncryptedMailAddress) :
    (setOrganizer s o).inviteRecipients = s.inviteRecipients := by
  unfold setOrganizer
  split <;> rfl

/-- setOrganizer never touches the ledger. -/
theorem setOrganizer_guestStatuses (s : VMState) (o : EncryptedMailAddress) :
    (setOrganizer s o).guestStatuses = s.guestStatuses := by
  unfold setOrganizer
  split <;> rfl

/-- An address that is not an attendee is absent from the invite roster. -/
theorem invite_not_rostered (s : VMState) (addr : String)
    (hNotAtt : findAttendeeInAddresses (fun g => g.address.address)
        (attendeesList s) [addr] = none) :
    s.inviteRecipients.any (fun x => x.address == addr) = false := by
  rw [List.any_eq_false]
  intro x hx
  simp only [beq_iff_eq]
  intro heq
  have hg : guestOfRecipient s.guestStatuses x ∈ attendeesList s := by
    unfold attendeesList
    cases s.ownAttendee <;>
      simp only [List.mem_append, List.mem_cons, List.mem_map] <;>
      [skip; right] <;>
      exact Or.inl ⟨x, hx, rfl⟩
  have hspec := List.find?_eq_none.mp hNotAtt _ hg
  apply hspec
  simp [guestOfRecipient, heq]

/-- The own attendee of the view model never carries the address of a non
attendee. -/
theorem ownAttendee_address_ne (s : VMState) (addr : String)
    (hNotAtt : findAttendeeInAddresses (fun g => g.address.address)
        (attendeesList s) [addr] = none) :
    ∀ ow, s.ownAttendee = some ow → ow.address ≠ addr := by
  intro ow how heq
  have hmem : Guest.mk ow ((lookupStatus s.guestStatuses ow.address).getD
      CalendarAttendeeStatus.ACCEPTED) ∈ attendeesList s := by
    unfold attendeesList
    rw [how]
    exact List.mem_cons_self _ _
  have hspec := List.find?_eq_none.mp hNotAtt _ hmem
  apply hspec
  simp [heq]

/-- The roster step is the identity for an own address. -/
theorem addGuestStepRoster_own (m : String) (s : VMState) :
    addGuestStepRoster true m s = s := rfl

/-- The roster step appends a foreign address absent from the roster. -/
theorem addGuestStepRoster_foreign (m : String) (s : VMState) :
    addGuestStepRoster false m s =
      { s with inviteRecipients :=
          addRecipient s.inviteRecipients { name := "", address := m } } := rfl

/-- The self replacement step does nothing for a foreign address. -/
theorem addGuestStepDropOwn_foreign (s : VMState) :
    addGuestStepDropOwn false s = s := rfl

/-- The organizer step does nothing for a foreign address. -/
theorem addGuestStepOrganizer_foreign (m : String) (s : VMState) :
    addGuestStepOrganizer false m s = s := rfl

/-- The self replacement step never touches the invite roster. -/
theorem addGuestStepDropOwn_inviteRecipients (b : Bool) (s : VMState) :
    (addGuestStepDropOwn b s).inviteRecipients = s.inviteRecipients := by
  unfold addGuestStepDropOwn
  split
  · split <;> rfl
  · rfl

/-- The status step never touches the invite roster. -/
theorem addGuestStepStatus_inviteRecipients (m : String)
    (st : CalendarAttendeeStatus) (s : VMState) :
    (addGuestStepStatus m st s).inviteRecipients = s.inviteRecipients := by
  unfold addGuestStepStatus
  split <;> rfl

/-- The self replacement step never touches the possible organizers. -/
theorem addGuestStepDropOwn_possibleOrganizers (b : Bool) (s : VMState) :
    (addGuestStepDropOwn b s).possibleOrganizers = s.possibleOrganizers := by
  unfold addGuestStepDropOwn
  split
  · split <;> rfl
  · rfl

/-- The status step never touches the possible organizers. -/
theorem addGuestStepStatus_possibleOrganizers (m : String)
    (st : CalendarAttendeeStatus) (s : VMState) :
    (addGuestStepStatus m st s).possibleOrganizers = s.possibleOrganizers := by
  unfold addGuestStepStatus
  split <;> rfl

/-- The self replacement step never touches the organizer. -/
theorem addGuestStepDropOwn_organizer (b : Bool) (s : VMState) :
    (addGuestStepDropOwn b s).organizer = s.organizer := by
  unfold addGuestStepDropOwn
  split
  · split <;> rfl
  · rfl

/-- The status step never touches the organizer. -/
theorem addGuestStepStatus_organizer (m : String) (st : CalendarAttendeeStatus)
    (s : VMState) :
    (addGuestStepStatus m st s).organizer = s.organizer := by
  unfold addGuestStepStatus
  split <;> rfl

/-- The guard of setOrganizer is insensitive to the ledger only steps. -/
theorem canModifyOrganizer_stepDropOwn (b : Bool) (s : VMState) :
    canModifyOrganizer (addGuestStepDropOwn b s) = canModifyOrganizer s := by
  unfold addGuestStepDropOwn
  split
  · split <;> rfl
  · rfl

/-- The guard of setOrganizer is insensitive to the status step. -/
theorem canModifyOrganizer_stepStatus (m : String) (st : CalendarAttendeeStatus)
    (s : VMState) :
    canModifyOrganizer (addGuestStepStatus m st s) = canModifyOrganizer s := by
  unfold addGuestStepStatus
  split <;> rfl

/-- The organizer step never touches the invite roster. -/
theorem addGuestStepOrganizer_inviteRecipients (b : Bool) (m : String)
    (s : VMState) :
    (addGuestStepOrganizer b m s).inviteRecipients = s.inviteRecipients := by
  unfold addGuestStepOrganizer
  split
  · split
    · exact setOrganizer_inviteRecipients _ _
    · rfl
  · rfl

/-- The organizer step never touches the ledger. -/
theorem addGuestStepOrganizer_guestStatuses (b : Bool) (m : String)
    (s : VMState) :
    (addGuestStepOrganizer b m s).guestStatuses = s.guestStatuses := by
  unfold addGuestStepOrganizer
  split
  · split
    · exact setOrganizer_guestStatuses _ _
    · rfl
  · rfl

/-- The auto join step never touches the invite roster. -/
theorem addGuestStepAutoJoin_inviteRecipients (s : VMState) :
    (addGuestStepAutoJoin s).inviteRecipients = s.inviteRecipients := by
  unfold addGuestStepAutoJoin
  split
  · exact selectGoing_inviteRecipients _ _
  · rfl

/-- The auto join step never touches the organizer. -/
theorem addGuestStepAutoJoin_organizer (s : VMState) :
    (addGuestStepAutoJoin s).organizer = s.organizer := by
  unfold addGuestStepAutoJoin
  split
  · exact selectGoing_organizer _ _
  · rfl

/-- An accepted ledger entry survives the auto join step. -/
theorem addGuestStepAutoJoin_lookup_accepted (s : VMState) (a : String)
    (h : lookupStatus s.guestStatuses a = some CalendarAttendeeStatus.ACCEPTED) :
    lookupStatus (addGuestStepAutoJoin s).guestStatuses a =
      some CalendarAttendeeStatus.ACCEPTED := by
  unfold addGuestStepAutoJoin
  split
  · exact selectGoing_lookup_accepted _ _ h
  · exact h

/-- A ledger entry survives the auto join step when its key is neither the own
attendee address nor the default sender address. -/
theorem addGuestStepAutoJoin_lookup_ne (s : VMState) (a : String)
    (h1 : ∀ ow, s.ownAttendee = some ow → ow.address ≠ a)
    (h2 : s.senderAddress ≠ a) :
    lookupStatus (addGuestStepAutoJoin s).guestStatuses a =
      lookupStatus s.guestStatuses a := by
  unfold addGuestStepAutoJoin
  split
  · exact selectGoing_lookup_ne _ _ _ h1 h2
  · rfl

/-- Organizer result of the organizer step when modification is allowed and a
possible organizer with the address exists. -/
theorem addGuestStepOrganizer_can (m : String) (s : VMState)
    (o0 : EncryptedMailAddress)
    (hFR : findRecipientWithAddress (fun x => x.address) s.possibleOrganizers m =
      some o0)
    (hcan : canModifyOrganizer s = true) :
    (addGuestStepOrganizer true m s).organizer = some o0 := by
  unfold addGuestStepOrganizer
  rw [if_pos rfl, hFR]
  unfold setOrganizer
  simp [hcan]

/-- Organizer result of the organizer step when modification is not allowed. -/
theorem addGuestStepOrganizer_cannot (b : Bool) (m : String) (s : VMState)
    (hcan : canModifyOrganizer s = false) :
    (addGuestStepOrganizer b m s).organizer = s.organizer := by
  unfold addGuestStepOrganizer
  split
  · split
    · unfold setOrganizer
      simp [hcan]
    · rfl
  · rfl

/-- Adding an own address as guest never touches the invite roster. -/
theorem addGuest_own_inviteRecipients (s : VMState) (addr : String)
    (hOwn : s.ownMailAddresses.contains addr = true) :
    (addGuest s addr).inviteRecipients = s.inviteRecipients := by
  unfold addGuest
  split
  · rfl
  · simp only [hOwn]
    rw [addGuestStepAutoJoin_inviteRecipients,
      addGuestStepOrganizer_inviteRecipients,
      addGuestStepStatus_inviteRecipients,
      addGuestStepDropOwn_inviteRecipients,
      addGuestStepRoster_own]

/-- Adding a fresh own address marks it accepted in the ledger. -/
theorem addGuest_own_ledger (s : VMState) (addr : String)
    (hOwn : s.ownMailAddresses.contains addr = true)
    (hNotAtt : findAttendeeInAddresses (fun g => g.address.address)
        (attendeesList s) [addr] = none)
    (hLedger : lookupStatus s.guestStatuses addr = none) :
    lookupStatus (addGuest s addr).guestStatuses addr =
      some CalendarAttendeeStatus.ACCEPTED := by
  unfold addGuest
  simp only [hNotAtt, Option.isSome_none, Bool.false_eq_true, if_false, hOwn,
    if_true]
  rw [addGuestStepRoster_own]
  apply addGuestStepAutoJoin_lookup_accepted
  rw [addGuestStepOrganizer_guestStatuses]
  have hnone : lookupStatus (addGuestStepDropOwn true s).guestStatuses addr = none := by
    unfold addGuestStepDropOwn
    rw [if_pos rfl]
    cases hFO : findOwnAttendee s with
    | none => exact hLedger
    | some g =>
        show lookupStatus (deleteMapEntry s.guestStatuses g.address.address) addr = none
        rw [lookupStatus_deleteMapEntry]
        split
        · rfl
        · exact hLedger
  unfold addGuestStepStatus
  rw [hnone]
  simp [lookupStatus_addMapEntry]

/-- Adding an own address that occurs among the possible organizers makes the
organizer carry that address: either the organizer may be modified and the
reassignment happens through setOrganizer, or, by the organizer invariant, the
organizer already carries it. -/
theorem addGuest_own_organizer (s : VMState) (addr : String)
    (hOwn : s.ownMailAddresses.contains addr = true)
    (hNotAtt : findAttendeeInAddresses (fun g => g.address.address)
        (attendeesList s) [addr] = none)
    (hInv : OrganizerInv s)
    (o : EncryptedMailAddress) (hpo : o ∈ s.possibleOrganizers)
    (hoa : o.address = addr) :
    (addGuest s addr).organizer.map (fun x => x.address) = some addr := by
  have hFindSome : (findRecipientWithAddress (fun x => x.address)
      s.possibleOrganizers addr).isSome := by
    unfold findRecipientWithAddress
    rw [List.find?_isSome]
    exact ⟨o, hpo, by simp [hoa]⟩
  cases hFR : findRecipientWithAddress (fun x => x.address)
      s.possibleOrganizers addr with
  | none => rw [hFR] at hFindSome; simp at hFindSome
  | some o0 =>
      have ho0 : o0.address = addr := by
        have hsp := List.find?_some hFR
        simpa using hsp
      unfold addGuest
      simp only [hNotAtt, Option.isSome_none, Bool.false_eq_true, if_false,
        hOwn, if_true]
      rw [addGuestStepRoster_own, addGuestStepAutoJoin_organizer]
      have hpos : (addGuestStepStatus addr CalendarAttendeeStatus.ACCEPTED
          (addGuestStepDropOwn true s)).possibleOrganizers =
          s.possibleOrganizers := by
        rw [addGuestStepStatus_possibleOrganizers,
          addGuestStepDropOwn_possibleOrganizers]
      have hcant : canModifyOrganizer (addGuestStepStatus addr
          CalendarAttendeeStatus.ACCEPTED (addGuestStepDropOwn true s)) =
          canModifyOrganizer s := by
        rw [canModifyOrganizer_stepStatus, canModifyOrganizer_stepDropOwn]
      by_cases hcan : canModifyOrganizer s = true
      · rw [addGuestStepOrganizer_can addr _ o0 (by rw [hpos]; exact hFR)
          (by rw [hcant]; exact hcan)]
        simp [ho0]
      · have hcan2 : canModifyOrganizer s = false := by
          revert hcan
          cases canModifyOrganizer s <;> simp
        rw [addGuestStepOrganizer_cannot true addr _ (by rw [hcant]; exact hcan2)]
        rw [addGuestStepStatus_organizer, addGuestStepDropOwn_organizer]
        rw [hInv hcan2 o hpo, hoa]

/-- The status step never touches the own attendee. -/
theorem addGuestStepStatus_ownAttendee (m : String) (st : CalendarAttendeeStatus)
    (s : VMState) :
    (addGuestStepStatus m st s).ownAttendee = s.ownAttendee := by
  unfold addGuestStepStatus
  split <;> rfl

/-- The status step never touches the sender address. -/
theorem addGuestStepStatus_senderAddress (m : String) (st : CalendarAttendeeStatus)
    (s : VMState) :
    (addGuestStepStatus m st s).senderAddress = s.senderAddress := by
  unfold addGuestStepStatus
  split <;> rfl

/-- Adding a foreign address that is not yet an attendee appends it to the
invite roster. -/
theorem addGuest_foreign_inviteRecipients (s : VMState) (addr : String)
    (hNotOwn : s.ownMailAddresses.contains addr = false)
    (hNotAtt : findAttendeeInAddresses (fun g => g.address.address)
        (attendeesList s) [addr] = none) :
    (addGuest s addr).inviteRecipients =
      s.inviteRecipients ++ [{ name := "", address := addr }] := by
  unfold addGuest
  simp only [hNotAtt, Option.isSome_none, Bool.false_eq_true, if_false, hNotOwn,
    Bool.not_false, if_true]
  rw [addGuestStepAutoJoin_inviteRecipients, addGuestStepOrganizer_foreign,
    addGuestStepStatus_inviteRecipients, addGuestStepDropOwn_foreign,
    addGuestStepRoster_foreign]
  show addRecipient s.inviteRecipients { name := "", address := addr } =
    s.inviteRecipients ++ [{ name := "", address := addr }]
  unfold addRecipient
  rw [invite_not_rostered s addr hNotAtt]
  simp

/-- A fresh guest receives its initial status from the status step. -/
theorem addGuestStepStatus_lookup_self (m : String) (st : CalendarAttendeeStatus)
    (s : VMState) (h : lookupStatus s.guestStatuses m = none) :
    lookupStatus (addGuestStepStatus m st s).guestStatuses m = some st := by
  unfold addGuestStepStatus
  rw [h]
  simp [lookupStatus_addMapEntry]

/-- Adding a fresh foreign address marks it added pending in the ledger. -/
theorem addGuest_foreign_ledger (s : VMState) (addr : String)
    (hNotOwn : s.ownMailAddresses.contains addr = false)
    (hNotAtt : findAttendeeInAddresses (fun g => g.address.address)
        (attendeesList s) [addr] = none)
    (hLedger : lookupStatus s.guestStatuses addr = none)
    (hSender : s.senderAddress ≠ addr) :
    lookupStatus (addGuest s addr).guestStatuses addr =
      some CalendarAttendeeStatus.ADDED := by
  unfold addGuest
  simp only [hNotAtt, Option.isSome_none, Bool.false_eq_true, if_false, hNotOwn,
    Bool.not_false, if_true]
  rw [addGuestStepOrganizer_foreign, addGuestStepDropOwn_foreign,
    addGuestStepRoster_foreign]
  rw [addGuestStepAutoJoin_lookup_ne]
  · exact addGuestStepStatus_lookup_self addr CalendarAttendeeStatus.ADDED _ hLedger
  · rw [addGuestStepStatus_ownAttendee]
    exact fun ow how => ownAttendee_address_ne s addr hNotAtt ow how
  · rw [addGuestStepStatus_senderAddress]
    exact hSender

/-- On an own event, adding a foreign address as the very first attendee while
the editor is not represented makes the editor auto join as accepted: the own
attendee slot is filled with the default sender and the ledger marks the
sender accepted. -/
theorem addGuest_foreign_autojoin (s : VMState) (addr : String)
    (hOwnEvt : s.eventType = EventType.OWN)
    (hInvE : s.inviteRecipients = []) (hUpdE : s.updateRecipients = [])
    (hOAE : s.ownAttendee = none)
    (hCF : cleanMailAddress addr ∉ s.ownMailAddresses.map cleanMailAddress)
    (hLedger : lookupStatus s.guestStatuses addr = none) :
    (addGuest s addr).ownAttendee =
      some { name := s.senderName, address := s.senderAddress } ∧
    lookupStatus (addGuest s addr).guestStatuses s.senderAddress =
      some CalendarAttendeeStatus.ACCEPTED := by
  have hAttEmpty : attendeesList s = [] := by
    unfold attendeesList
    rw [hOAE, hInvE, hUpdE]
    rfl
  have hNotAtt : findAttendeeInAddresses (fun g => g.address.address)
      (attendeesList s) [addr] = none := by
    rw [hAttEmpty]
    rfl
  have hmemOwn : addr ∉ s.ownMailAddresses := fun hm =>
    hCF (List.mem_map_of_mem _ hm)
  have hNotOwn : s.ownMailAddresses.contains addr = false := by
    cases hc : s.ownMailAddresses.contains addr
    · rfl
    · exact absurd (List.mem_of_elem_eq_true hc) hmemOwn
  have hcont : (s.ownMailAddresses.map cleanMailAddress).contains
      (cleanMailAddress addr) = false := by
    cases hc : (s.ownMailAddresses.map cleanMailAddress).contains
        (cleanMailAddress addr)
    · rfl
    · exact absurd (List.mem_of_elem_eq_true hc) hCF
  unfold addGuest
  simp only [hNotAtt, Option.isSome_none, Bool.false_eq_true, if_false, hNotOwn,
    Bool.not_false, if_true]
  rw [addGuestStepOrganizer_foreign, addGuestStepDropOwn_foreign,
    addGuestStepRoster_foreign, hInvE]
  rw [show addRecipient [] { name := "", address := addr } =
    [{ name := "", address := addr }] from rfl]
  set t1 : VMState := { s with inviteRecipients := [{ name := "", address := addr }] } with ht1
  have hstep2 : addGuestStepStatus addr CalendarAttendeeStatus.ADDED t1 =
      { t1 with guestStatuses := addMapEntry s.guestStatuses addr CalendarAttendeeStatus.ADDED } := by
    unfold addGuestStepStatus
    rw [show lookupStatus t1.guestStatuses addr = none from hLedger]
    rfl
  rw [hstep2]
  set t2 : VMState := { t1 with guestStatuses := addMapEntry s.guestStatuses addr CalendarAttendeeStatus.ADDED } with ht2
  have hA2 : attendeesList t2 =
      [guestOfRecipient t2.guestStatuses { name := "", address := addr }] := by
    unfold attendeesList
    rw [show t2.ownAttendee = none from hOAE,
      show t2.updateRecipients = [] from hUpdE]
    rfl
  have hFO2 : findOwnAttendee t2 = none := by
    unfold findOwnAttendee findAttendeeInAddresses
    rw [hA2]
    simp [guestOfRecipient, hcont]
    intro x hx heq
    exact hCF (heq ▸ List.mem_map_of_mem cleanMailAddress hx)
  unfold addGuestStepAutoJoin
  rw [if_pos (show ((attendeesList t2).length == 1 &&
      (findOwnAttendee t2).isNone) = true from by rw [hA2, hFO2]; rfl)]
  unfold selectGoing
  rw [show canModifyOwnAttendance t2 = true from by
    unfold canModifyOwnAttendance
    rw [show t2.eventType = EventType.OWN from hOwnEvt]
    rfl]
  rw [if_pos rfl]
  rw [show t2.ownAttendee = none from hOAE]
  rw [show (t2.eventType == EventType.OWN) = true from by
    rw [show t2.eventType = EventType.OWN from hOwnEvt]
    rfl]
  simp [lookupStatus_addMapEntry]

/-- Existing event on a calendar shared with the editor read only. -/
def c5Event : CalendarEvent :=
  { defaultCalendarEvent with
    evId := some ("l1", "e1")
    ownerGroup := some "grpShared"
    startTime := 19000 * 1440 + 600
    endTime := 19000 * 1440 + 660 }

/-- View model opened on the shared read only event. -/
def c5State : VMState :=
  { baseState with
    eventType := EventType.SHARED_RO
    existingEvent := some c5Event
    organizer := none
    possibleOrganizers := []
    selectedCalendar := some { groupId := "grpShared", shared := true }
    calendars := [("grpShared", { groupId := "grpShared", shared := true })] }

/-- Counterexample to C5 as stated: on a shared read only event, adding a
foreign guest as the very first attendee while the editor is not represented
does not make the editor auto join: the own attendee slot stays empty and the
editor receives no accepted ledger entry, because the auto join runs through
selectGoing, which requires the right to modify own attendance. -/
theorem claim_C5_counterexample :
    attendeesList c5State = [] ∧
    attendeesList (addGuest c5State "guest@other.com") =
      [{ address := { name := "", address := "guest@other.com" },
         status := CalendarAttendeeStatus.ADDED }] ∧
    findOwnAttendee (addGuest c5State "guest@other.com") = none ∧
    (addGuest c5State "guest@other.com").ownAttendee = none ∧
    lookupStatus (addGuest c5State "guest@other.com").guestStatuses
      c5State.senderAddress = none := by
  decide

/-- C5 (amended): an own address is never placed on the invite roster, a fresh
own address is promoted to the accepted status in the ledger, and when it
occurs among the possible organizers it replaces the current organizer (under
the organizer invariant established at initialization); a fresh foreign
address is appended to the invite roster with the added pending status; and on
an own event, when the inserted guest is the very first attendee and the
editor is not represented, the editor auto joins as accepted. The auto join
clause is restricted to own events, where own attendance may be modified. -/
theorem claim_C5 (s : VMState) (addr : String) :
    ((s.ownMailAddresses.contains addr = true ∧
      findAttendeeInAddresses (fun g => g.address.address) (attendeesList s)
        [addr] = none) →
      ((addGuest s addr).inviteRecipients = s.inviteRecipients ∧
       (lookupStatus s.guestStatuses addr = none →
         lookupStatus (addGuest s addr).guestStatuses addr =
           some CalendarAttendeeStatus.ACCEPTED) ∧
       (OrganizerInv s → ∀ o ∈ s.possibleOrganizers, o.address = addr →
         (addGuest s addr).organizer.map (fun x => x.address) = some addr)))
    ∧ ((s.ownMailAddresses.contains addr = false ∧
        findAttendeeInAddresses (fun g => g.address.address) (attendeesList s)
          [addr] = none ∧
        lookupStatus s.guestStatuses addr = none) →
       ((addGuest s addr).inviteRecipients =
          s.inviteRecipients ++ [{ name := "", address := addr }] ∧
        (s.senderAddress ≠ addr →
          lookupStatus (addGuest s addr).guestStatuses addr =
            some CalendarAttendeeStatus.ADDED)))
    ∧ ((s.eventType = EventType.OWN ∧ s.inviteRecipients = [] ∧
        s.updateRecipients = [] ∧ s.ownAttendee = none ∧
        cleanMailAddress addr ∉ s.ownMailAddresses.map cleanMailAddress ∧
        lookupStatus s.guestStatuses addr = none) →
       ((addGuest s addr).ownAttendee =
          some { name := s.senderName, address := s.senderAddress } ∧
        lookupStatus (addGuest s addr).guestStatuses s.senderAddress =
          some CalendarAttendeeStatus.ACCEPTED)) := by
  refine ⟨?_, ?_, ?_⟩
  · rintro ⟨hOwn, hNotAtt⟩
    exact ⟨addGuest_own_inviteRecipients s addr hOwn,
      fun hL => addGuest_own_ledger s addr hOwn hNotAtt hL,
      fun hInv o hpo hoa => addGuest_own_organizer s addr hOwn hNotAtt hInv o hpo hoa⟩
  · rintro ⟨hNotOwn, hNotAtt, hLedger⟩
    exact ⟨addGuest_foreign_inviteRecipients s addr hNotOwn hNotAtt,
      fun hS => addGuest_foreign_ledger s addr hNotOwn hNotAtt hLedger hS⟩
  · rintro ⟨h1, h2, h3, h4, h5, h6⟩
    exact addGuest_foreign_autojoin s addr h1 h2 h3 h4 h5 h6

/-- Witness for C5 at concrete inputs: a fresh own alias replaces the
organizer without entering the invite roster, and a fresh foreign address
enters the roster as added pending with the editor auto joining. -/
theorem claim_C5_witness :
    (addGuest baseState "me@example.com").organizer.map (fun x => x.address) =
        some "me@example.com" ∧
    (addGuest baseState "me@example.com").inviteRecipients =
      baseState.inviteRecipients ∧
    (addGuest baseState "x@example.org").inviteRecipients =
      baseState.inviteRecipients ++ [{ name := "", address := "x@example.org" }] ∧
    lookupStatus (addGuest baseState "x@example.org").guestStatuses
      "x@example.org" = some CalendarAttendeeStatus.ADDED ∧
    (addGuest baseState "x@example.org").ownAttendee =
      some { name := baseState.senderName, address := baseState.senderAddress } := by
  have h := claim_C5 baseState "me@example.com"
  have h2 := claim_C5 baseState "x@example.org"
  have hInvB : OrganizerInv baseState := fun hguard => absurd hguard (by decide)
  refine ⟨?_, ?_, ?_, ?_, ?_⟩
  · exact (h.1 ⟨by decide, by decide⟩).2.2 hInvB
      { name := "Me", address := "me@example.com" } (by decide) rfl
  · exact (h.1 ⟨by decide, by decide⟩).1
  · exact (h2.2.1 ⟨by decide, by decide, by decide⟩).1
  · exact (h2.2.1 ⟨by decide, by decide, by decide⟩).2 (by decide)
  · exact (h2.2.2 ⟨rfl, rfl, rfl, rfl, by decide, rfl⟩).1

/-- Shifting the start index of findIdx? shifts the found index. -/
theorem findIdx?_start_shift {α : Type} (p : α → Bool) (xs : List α) (i : Nat) :
    List.findIdx? p xs (i + 1) = (List.findIdx? p xs i).map (fun k => k + 1) := by
  induction xs generalizing i with
  | nil => rfl
  | cons x xs ih =>
      rw [List.findIdx?_cons, List.findIdx?_cons]
      by_cases h : p x <;> simp [h, ih]

/-- The splice based insertion unfolds like an insertion sort step. -/
theorem insertExcludedDate_cons (x : Int) (xs : List Int) (t : Int) :
    insertExcludedDate (x :: xs) t =
      if t ≤ x then t :: x :: xs else x :: insertExcludedDate xs t := by
  unfold insertExcludedDate
  rw [List.findIdx?_cons]
  by_cases h : t ≤ x
  · simp [h]
  · simp only [h, decide_False, Bool.false_eq_true, if_false]
    rw [findIdx?_start_shift]
    cases hfi : List.findIdx? (fun d => decide (t ≤ d)) xs 0 with
    | none => simp
    | some i => simp

/-- The splice based insertion is the ordered insertion. -/
theorem insertExcludedDate_eq_orderedInsert (l : List Int) (t : Int) :
    insertExcludedDate l t = List.orderedInsert (fun a b => a ≤ b) t l := by
  induction l with
  | nil => rfl
  | cons x xs ih =>
      rw [insertExcludedDate_cons, List.orderedInsert, ih]

/-- The splice based insertion preserves ascending order. -/
theorem insertExcludedDate_sorted (l : List Int) (t : Int)
    (h : List.Sorted (fun a b : Int => a ≤ b) l) :
    List.Sorted (fun a b : Int => a ≤ b) (insertExcludedDate l t) := by
  rw [insertExcludedDate_eq_orderedInsert]
  exact List.Sorted.orderedInsert t l h

/-- C8: for a recurring series whose loaded root carries an ascending
exclusion list, excludeThisOccurrence persists a copy of the root whose
exclusion list has the start instant of the clicked instance inserted right
before the first exclusion at or after it (appended when none exists), the
persisted list is again ascending, and the view model draft is not touched. -/
theorem claim_C8 (s : VMState) (ex root : CalendarEvent)
    (rule : CalendarRepeatRule) (ci : CalendarInfo) (g : String)
    (hex : s.existingEvent = some ex)
    (hcal : s.selectedCalendar = some ci)
    (hrep : ex.repeatRule.isSome = true)
    (hroot : root.repeatRule = some rule)
    (hog : ex.ownerGroup = some g)
    (hlook : lookupCalendar s.calendars g = some ci)
    (hsorted : List.Sorted (fun a b : Int => a ≤ b) rule.excludedDates) :
    (excludeThisOccurrence s (some root)).snd = s ∧
    (excludeThisOccurrence s (some root)).fst =
      some { root with repeatRule := some { rule with excludedDates := insertExcludedDate rule.excludedDates ex.startTime } } ∧
    List.Sorted (fun a b : Int => a ≤ b)
      (insertExcludedDate rule.excludedDates ex.startTime) := by
  refine ⟨?_, ?_, insertExcludedDate_sorted _ _ hsorted⟩
  · unfold excludeThisOccurrence
    simp only [hex, hcal, hrep, if_true, hroot, hog, hlook]
  · unfold excludeThisOccurrence
    simp only [hex, hcal, hrep, if_true, hroot, hog, hlook]

/-- Root of the recurring series used by the C8 witness, with one existing
exclusion. -/
def c8Root : CalendarEvent :=
  { defaultCalendarEvent with
    evId := some ("l1", "root")
    ownerGroup := some "grp1"
    startTime := 19000 * 1440
    endTime := 19000 * 1440 + 60
    repeatRule := some { frequency := RepeatPeriod.DAILY, interval := 1, endType := EndType.Never, endValue := none, timeZone := "UTC", excludedDates := [19001 * 1440] } }

/-- Clicked instance of the series used by the C8 witness, one day after the
existing exclusion. -/
def c8Clicked : CalendarEvent :=
  { c8Root with startTime := 19002 * 1440, endTime := 19002 * 1440 + 60 }

/-- View model opened on the clicked instance used by the C8 witness. -/
def c8State : VMState :=
  { baseState with existingEvent := some c8Clicked }

/-- Witness for C8 at concrete inputs: inserting the later instance keeps the
exclusion list ascending and appends at the end, and the draft state is
unchanged. -/
theorem claim_C8_witness :
    (excludeThisOccurrence c8State (some c8Root)).snd = c8State ∧
    (excludeThisOccurrence c8State (some c8Root)).fst =
      some { c8Root with repeatRule := some { frequency := RepeatPeriod.DAILY, interval := 1, endType := EndType.Never, endValue := none, timeZone := "UTC", excludedDates := [19001 * 1440, 19002 * 1440] } } := by
  have h := claim_C8 c8State c8Clicked c8Root
    { frequency := RepeatPeriod.DAILY, interval := 1, endType := EndType.Never,
      endValue := none, timeZone := "UTC", excludedDates := [19001 * 1440] }
    { groupId := "grp1", shared := false } "grp1" rfl rfl rfl rfl rfl rfl
    (by decide)
  refine ⟨h.1, ?_⟩
  rw [h.2.1]
  rfl

/-- The update question resolves to yes exactly when updatable attendees
exist and the user agreed or updates are forced. -/
theorem updateResponseOf_yes_iff (s : VMState) (ua : Answer) :
    updateResponseOf s ua = Answer.yes ↔
      (hasUpdatableAttendees s = true ∧
        (s.isForceUpdates = true ∨ ua = Answer.yes)) := by
  unfold updateResponseOf
  by_cases h1 : hasUpdatableAttendees s = true
  · by_cases h2 : s.isForceUpdates = true
    · simp [h1, h2]
    · simp [h1, h2]
  · simp [h1]

/-- The invite step does not change the cancel roster. -/
theorem sendInviteStep_cancelRecipients (s : VMState) (ev : CalendarEvent) :
    (sendInviteStep s ev).snd.snd.cancelRecipients = s.cancelRecipients := by
  unfold sendInviteStep
  by_cases h : (ev.attendees.filter
      (fun a => a.status == CalendarAttendeeStatus.ADDED)).isEmpty = true <;> simp [h]

/-- The invite step does not change the update roster. -/
theorem sendInviteStep_updateRecipients (s : VMState) (ev : CalendarEvent) :
    (sendInviteStep s ev).snd.snd.updateRecipients = s.updateRecipients := by
  unfold sendInviteStep
  by_cases h : (ev.attendees.filter
      (fun a => a.status == CalendarAttendeeStatus.ADDED)).isEmpty = true <;> simp [h]

/-- The invite step does not change the account type. -/
theorem sendInviteStep_accountType (s : VMState) (ev : CalendarEvent) :
    (sendInviteStep s ev).snd.snd.accountType = s.accountType := by
  unfold sendInviteStep
  by_cases h : (ev.attendees.filter
      (fun a => a.status == CalendarAttendeeStatus.ADDED)).isEmpty = true <;> simp [h]

/-- The invite trace of the invite step: one invite to the invite roster
exactly when an added pending attendee exists. -/
theorem sendInviteStep_fst (s : VMState) (ev : CalendarEvent) :
    (sendInviteStep s ev).fst =
      if ev.attendees.any (fun a => a.status == CalendarAttendeeStatus.ADDED)
      then [Action.inviteSent ev s.inviteRecipients] else [] := by
  by_cases hfe : ev.attendees.filter
      (fun a => a.status == CalendarAttendeeStatus.ADDED) = []
  · have hany : ev.attendees.any
        (fun a => a.status == CalendarAttendeeStatus.ADDED) = false :=
      List.any_eq_false.mpr (fun a ha hp => (List.filter_eq_nil_iff.mp hfe a ha) hp)
    unfold sendInviteStep
    rw [hfe, hany]
    rfl
  · obtain ⟨a, ha⟩ := List.exists_mem_of_ne_nil _ hfe
    have hmem := List.mem_filter.mp ha
    have hany : ev.attendees.any
        (fun a => a.status == CalendarAttendeeStatus.ADDED) = true :=
      List.any_eq_true.mpr ⟨a, hmem.1, hmem.2⟩
    unfold sendInviteStep
    rw [hany, if_neg (fun hie => hfe (List.isEmpty_iff.mp hie))]
    rfl

/-- Ledger lookup after folding status overwrites for a list of attendees. -/
theorem lookupStatus_foldl_add (l : List CalendarEventAttendee) (m : StatusLedger)
    (k : String) (v : CalendarAttendeeStatus) :
    lookupStatus (l.foldl (fun acc a => addMapEntry acc a.address.address v) m) k =
      if l.any (fun a => a.address.address == k) then some v
      else lookupStatus m k := by
  induction l generalizing m with
  | nil => simp
  | cons x xs ih =>
      simp only [List.foldl_cons, List.any_cons]
      rw [ih]
      by_cases hx : x.address.address = k
      · split <;> simp [lookupStatus_addMapEntry, hx]
      · by_cases hxs : xs.any (fun a => a.address.address == k) = true
        · rw [if_pos hxs, if_pos (by simp [hxs])]
        · have hxs2 : xs.any (fun a => a.address.address == k) = false := by
            revert hxs
            cases xs.any (fun a => a.address.address == k) <;> simp
          rw [if_neg (by simp [hxs2]), lookupStatus_addMapEntry, if_neg hx,
            if_neg (by simp [hx, hxs2])]


/-- After the invite step, every attendee that had the added pending status is
tracked as needs action in the ledger. -/
theorem sendInviteStep_ledger (s : VMState) (ev : CalendarEvent) :
    ∀ a ∈ ev.attendees, a.status = CalendarAttendeeStatus.ADDED →
      lookupStatus (sendInviteStep s ev).snd.snd.guestStatuses
        a.address.address = some CalendarAttendeeStatus.NEEDS_ACTION := by
  intro a ha hst
  unfold sendInviteStep
  have hmemf : a ∈ ev.attendees.filter
      (fun x => x.status == CalendarAttendeeStatus.ADDED) :=
    List.mem_filter.mpr ⟨ha, by simp [hst]⟩
  rw [if_neg (fun hie => by
    rw [List.isEmpty_iff.mp hie] at hmemf
    simp at hmemf)]
  show lookupStatus ((ev.attendees.filter
      (fun x => x.status == CalendarAttendeeStatus.ADDED)).foldl
        (fun m x => addMapEntry m x.address.address
          CalendarAttendeeStatus.NEEDS_ACTION) s.guestStatuses)
      a.address.address = some CalendarAttendeeStatus.NEEDS_ACTION
  rw [lookupStatus_foldl_add]
  rw [if_pos (List.any_eq_true.mpr ⟨a, hmemf, by simp⟩)]

/-- Every action traced by a successful persistence step is a store call. -/
theorem saveEvent_persist (s : VMState) (ev : CalendarEvent) (tr : List Action)
    (h : saveEvent s ev = Except.ok tr) : ∀ a ∈ tr, isPersistAction a = true := by
  unfold saveEvent at h
  split at h
  · injection h with h1
    subst h1
    simp
  · split at h
    · simp at h
    · split at h
      · injection h with h1
        subst h1
        simp [isPersistAction]
      · split at h
        · injection h with h1
          subst h1
          simp [isPersistAction]
        · injection h with h1
          subst h1
          simp [isPersistAction]

/-- Under an external account the persistence step succeeds with no store
call. -/
theorem saveEvent_external (s : VMState) (ev : CalendarEvent)
    (hext : s.accountType = AccountType.EXTERNAL) :
    saveEvent s ev = Except.ok [] := by
  unfold saveEvent
  rw [if_pos hext]

/-- C7: a saveAndSend call that begins while an earlier one is still
processing returns a not saved result immediately with no external call and
no state change, and when the guard is clear on entry it is clear again on
every exit path, success and error alike, so a subsequent call can proceed. -/
theorem claim_C7 (s : VMState) (ua : Answer) (pa : Bool) :
    (s.processing = true → saveAndSend s ua pa = (Except.ok false, [], s)) ∧
    (s.processing = false →
      (saveAndSend s ua pa).snd.snd.processing = false) := by
  constructor
  · intro h
    unfold saveAndSend
    rw [if_pos h]
  · intro h
    unfold saveAndSend
    rw [if_neg (by simp [h])]
    cases saveAndSendBody { s with processing := true } ua pa <;> rfl

/-- Concrete run of the single flight guard: a processing state rejects the
call unchanged and an idle state ends with the guard cleared. -/
theorem claim_C7_witness :
    (({ baseState with processing := true } : VMState).processing = true ∧
        saveAndSend { baseState with processing := true } Answer.yes true =
          (Except.ok false, [], { baseState with processing := true })) ∧
      (baseState.processing = false ∧
        (saveAndSend baseState Answer.yes true).snd.snd.processing = false) :=
  ⟨⟨rfl, (claim_C7 { baseState with processing := true } Answer.yes true).1 rfl⟩,
    ⟨rfl, (claim_C7 baseState Answer.yes true).2 rfl⟩⟩

/-- C6: within the notify and save protocol a successful run dispatches in
the fixed order invite, cancel, persist, update: the invite goes out exactly
when an added pending attendee exists, the cancellation exactly when the
cancel roster is non empty, the persistence trace sits between the sends and
the update, the update goes out exactly when updatable attendees exist and
the user agreed or updates were forced, and every attendee that was added
pending is tracked as needs action in the final ledger. -/
theorem claim_C6 (s : VMState) (ua : Answer) (pa : Bool) (ev : CalendarEvent)
    (tr : List Action) (s2 : VMState)
    (h : sendNotificationAndSave s ua pa ev = Except.ok (true, tr, s2)) :
    ∃ flipped persistTrace,
      tr =
        (if ev.attendees.any (fun a => a.status == CalendarAttendeeStatus.ADDED)
          then [Action.inviteSent ev s.inviteRecipients] else []) ++
          (if !s.cancelRecipients.isEmpty
            then [Action.cancellationSent flipped s.cancelRecipients] else []) ++
          persistTrace ++
          (if updateResponseOf s ua = Answer.yes
            then [Action.updateSent flipped s.updateRecipients] else []) ∧
      (∀ a ∈ persistTrace, isPersistAction a = true) ∧
      (updateResponseOf s ua = Answer.yes ↔
        hasUpdatableAttendees s = true ∧
          (s.isForceUpdates = true ∨ ua = Answer.yes)) ∧
      ∀ a ∈ ev.attendees, a.status = CalendarAttendeeStatus.ADDED →
        lookupStatus s2.guestStatuses a.address.address =
          some CalendarAttendeeStatus.NEEDS_ACTION := by
  unfold sendNotificationAndSave at h
  split at h
  · simp at h
  · split at h
    · simp at h
    · split at h
      · simp at h
      · split at h
        · simp at h
        · rename_i saveTrace heq
          simp only [Except.ok.injEq, Prod.mk.injEq, true_and] at h
          obtain ⟨htr, hs2⟩ := h
          subst hs2
          refine ⟨(sendInviteStep s ev).snd.fst, saveTrace, ?_,
            saveEvent_persist _ _ _ heq, updateResponseOf_yes_iff s ua,
            sendInviteStep_ledger s ev⟩
          rw [← htr, sendInviteStep_fst, sendInviteStep_cancelRecipients,
            sendInviteStep_updateRecipients]

/-- One added pending foreign guest on the candidate event. -/
def c6AttendeeAdded : CalendarEventAttendee :=
  { address := { name := "Bob", address := "bob@x.com" },
    status := CalendarAttendeeStatus.ADDED }

/-- The same guest after the invite dispatch flip. -/
def c6AttendeeNeedsAction : CalendarEventAttendee :=
  { address := { name := "Bob", address := "bob@x.com" },
    status := CalendarAttendeeStatus.NEEDS_ACTION }

/-- Candidate event carrying the added pending guest. -/
def c6Event : CalendarEvent :=
  { defaultCalendarEvent with
    startTime := 19000 * 1440 + 600
    endTime := 19000 * 1440 + 660
    attendees := [c6AttendeeAdded] }

/-- State with all three rosters populated and the guest tracked as added
pending. -/
def c6State : VMState :=
  { baseState with
    inviteRecipients := [{ name := "Bob", address := "bob@x.com" }]
    cancelRecipients := [{ name := "Carol", address := "carol@x.com" }]
    updateRecipients := [{ name := "Dave", address := "dave@x.com" }]
    guestStatuses := [("bob@x.com", CalendarAttendeeStatus.ADDED)] }

/-- The candidate event with the added pending guest flipped to needs
action. -/
def c6Flipped : CalendarEvent :=
  { c6Event with attendees := [c6AttendeeNeedsAction] }

/-- The trace of the concrete notify and save run. -/
def c6Trace : List Action :=
  [Action.inviteSent c6Event c6State.inviteRecipients,
    Action.cancellationSent c6Flipped c6State.cancelRecipients,
    Action.eventCreated c6Flipped,
    Action.updateSent c6Flipped c6State.updateRecipients]

/-- The final state of the concrete notify and save run. -/
def c6Final : VMState :=
  { c6State with
    guestStatuses := [("bob@x.com", CalendarAttendeeStatus.NEEDS_ACTION)] }

/-- Concrete notify and save run with all four dispatch phases populated, in
the fixed order invite, cancel, persist, update. -/
theorem claim_C6_witness :
    sendNotificationAndSave c6State Answer.yes true c6Event =
        Except.ok (true, c6Trace, c6Final) ∧
      ∃ flipped persistTrace,
        c6Trace =
          (if c6Event.attendees.any
              (fun a => a.status == CalendarAttendeeStatus.ADDED)
            then [Action.inviteSent c6Event c6State.inviteRecipients] else []) ++
            (if !c6State.cancelRecipients.isEmpty
              then [Action.cancellationSent flipped c6State.cancelRecipients]
              else []) ++
            persistTrace ++
            (if updateResponseOf c6State Answer.yes = Answer.yes
              then [Action.updateSent flipped c6State.updateRecipients] else []) ∧
        (∀ a ∈ persistTrace, isPersistAction a = true) ∧
        (updateResponseOf c6State Answer.yes = Answer.yes ↔
          hasUpdatableAttendees c6State = true ∧
            (c6State.isForceUpdates = true ∨ Answer.yes = Answer.yes)) ∧
        ∀ a ∈ c6Event.attendees, a.status = CalendarAttendeeStatus.ADDED →
          lookupStatus c6Final.guestStatuses a.address.address =
            some CalendarAttendeeStatus.NEEDS_ACTION :=
  ⟨rfl, claim_C6 c6State Answer.yes true c6Event c6Trace c6Final rfl⟩

/-- C9: in the invite save path, when the self attendee is found on the
original event, a run that succeeds sends no response when the desired ledger
status equals the original status or is needs action (the trace is pure
persistence), and in every other case exactly one response carrying the
desired status goes to the organizer address, the transient roster is
disposed, and the persistence calls come only after those two steps. -/
theorem claim_C9 (s : VMState) (existing newEvent : CalendarEvent)
    (ownA : CalendarEventAttendee)
    (hown : findAttendeeInAddresses (fun a => a.address.address)
      existing.attendees s.ownMailAddresses = some ownA)
    (r : Bool) (tr : List Action) (s2 : VMState)
    (h : respondToOrganizerAndSave s existing newEvent = Except.ok (r, tr, s2)) :
    ((lookupStatus s.guestStatuses ownA.address.address =
          some CalendarAttendeeStatus.NEEDS_ACTION ∨
        lookupStatus s.guestStatuses ownA.address.address = some ownA.status) →
      ∀ a ∈ tr, isPersistAction a = true) ∧
    ∀ desired, lookupStatus s.guestStatuses ownA.address.address = some desired →
      desired ≠ CalendarAttendeeStatus.NEEDS_ACTION → desired ≠ ownA.status →
      ∃ organizer persistTrace,
        existing.organizer = some organizer ∧
        tr = Action.responseSent newEvent organizer.address desired ::
          Action.responseRosterDisposed :: persistTrace ∧
        ∀ a ∈ persistTrace, isPersistAction a = true := by
  unfold respondToOrganizerAndSave at h
  split at h
  · rename_i heq
    rw [hown] at heq
    simp at heq
  · rename_i ownA' heq
    rw [hown] at heq
    injection heq with heqa
    subst heqa
    constructor
    · intro hno
      have hcondf : ¬(lookupStatus s.guestStatuses ownA.address.address ≠
            some CalendarAttendeeStatus.NEEDS_ACTION ∧
          some ownA.status ≠ lookupStatus s.guestStatuses ownA.address.address) := by
        rcases hno with hna | hsame
        · intro hcond
          exact hcond.1 hna
        · intro hcond
          exact hcond.2 hsame.symm
      rw [if_neg hcondf] at h
      split at h
      · simp at h
      · rename_i saveTrace heqs
        simp only [Except.ok.injEq, Prod.mk.injEq] at h
        obtain ⟨-, htr, -⟩ := h
        subst htr
        exact saveEvent_persist s newEvent saveTrace heqs
    · intro desired hdes hne1 hne2
      have hcondt : lookupStatus s.guestStatuses ownA.address.address ≠
            some CalendarAttendeeStatus.NEEDS_ACTION ∧
          some ownA.status ≠ lookupStatus s.guestStatuses ownA.address.address := by
        constructor
        · rw [hdes]
          intro hx
          injection hx with hx1
          exact hne1 hx1
        · rw [hdes]
          intro hx
          injection hx with hx1
          exact hne2 hx1.symm
      rw [if_pos hcondt] at h
      split at h
      · rename_i heqn
        rw [hdes] at heqn
        simp at heqn
      · rename_i desired' heqd
        rw [hdes] at heqd
        injection heqd with heqd1
        subst heqd1
        split at h
        · simp at h
        · rename_i organizer horg
          split at h
          · simp at h
          · rename_i saveTrace heqs
            simp only [Except.ok.injEq, Prod.mk.injEq] at h
            obtain ⟨-, htr, -⟩ := h
            exact ⟨organizer, saveTrace, horg, htr.symm,
              saveEvent_persist s newEvent saveTrace heqs⟩

/-- The self attendee on the received invite, still needs action on the
original event. -/
def c9Own : CalendarEventAttendee :=
  { address := { name := "Me", address := "me@example.com" },
    status := CalendarAttendeeStatus.NEEDS_ACTION }

/-- The organizer of the received invite. -/
def c9Organizer : EncryptedMailAddress := { name := "Org", address := "org@x.com" }

/-- The persisted original of the received invite. -/
def c9Existing : CalendarEvent :=
  { defaultCalendarEvent with
    evId := some ("lst", "el1")
    startTime := 19000 * 1440 + 600
    endTime := 19000 * 1440 + 660
    organizer := some c9Organizer
    attendees := [c9Own] }

/-- Invite state whose ledger carries the accepted answer for the self
attendee. -/
def c9State : VMState :=
  { baseState with
    eventType := EventType.INVITE
    existingEvent := some c9Existing
    guestStatuses := [("me@example.com", CalendarAttendeeStatus.ACCEPTED)] }

/-- The materialized candidate of the invite save. -/
def c9New : CalendarEvent := { c9Existing with sequence := 1 }

/-- The trace of the concrete invite save run: one response, the roster
disposal, then the persistence call. -/
def c9Trace : List Action :=
  [Action.responseSent c9New c9Organizer.address CalendarAttendeeStatus.ACCEPTED,
    Action.responseRosterDisposed, Action.eventUpdated c9New]

/-- Concrete invite save run: the accepted answer differs from the needs
action original, so one response precedes the roster disposal and the
persistence call. -/
theorem claim_C9_witness :
    (findAttendeeInAddresses (fun a => a.address.address) c9Existing.attendees
        c9State.ownMailAddresses = some c9Own ∧
      respondToOrganizerAndSave c9State c9Existing c9New =
        Except.ok (true, c9Trace, c9State)) ∧
    ((lookupStatus c9State.guestStatuses c9Own.address.address =
          some CalendarAttendeeStatus.NEEDS_ACTION ∨
        lookupStatus c9State.guestStatuses c9Own.address.address =
          some c9Own.status) →
      ∀ a ∈ c9Trace, isPersistAction a = true) ∧
    ∀ desired, lookupStatus c9State.guestStatuses c9Own.address.address =
        some desired →
      desired ≠ CalendarAttendeeStatus.NEEDS_ACTION → desired ≠ c9Own.status →
      ∃ organizer persistTrace,
        c9Existing.organizer = some organizer ∧
        c9Trace = Action.responseSent c9New organizer.address desired ::
          Action.responseRosterDisposed :: persistTrace ∧
        ∀ a ∈ persistTrace, isPersistAction a = true :=
  ⟨⟨rfl, rfl⟩, claim_C9 c9State c9Existing c9New c9Own rfl true c9Trace c9State rfl⟩

/-- A successful notify and save run under an external account performs no
store call. -/
theorem sendNotificationAndSave_no_persist (s : VMState) (ua : Answer)
    (pa : Bool) (ev : CalendarEvent)
    (hext : s.accountType = AccountType.EXTERNAL)
    (r : Bool) (tr : List Action) (s2 : VMState)
    (h : sendNotificationAndSave s ua pa ev = Except.ok (r, tr, s2)) :
    ∀ a ∈ tr, isPersistAction a = false := by
  unfold sendNotificationAndSave at h
  split at h
  · simp only [Except.ok.injEq, Prod.mk.injEq] at h
    obtain ⟨-, htr, -⟩ := h
    subst htr
    simp
  · split at h
    · simp at h
    · split at h
      · simp only [Except.ok.injEq, Prod.mk.injEq] at h
        obtain ⟨-, htr, -⟩ := h
        subst htr
        simp
      · split at h
        · simp at h
        · rename_i saveTrace heqs
          have hsx : (sendInviteStep s ev).snd.snd.accountType =
              AccountType.EXTERNAL := by
            rw [sendInviteStep_accountType]
            exact hext
          rw [saveEvent_external _ _ hsx] at heqs
          injection heqs with heqs1
          subst heqs1
          simp only [Except.ok.injEq, Prod.mk.injEq] at h
          obtain ⟨-, htr, -⟩ := h
          subst htr
          rw [sendInviteStep_fst]
          by_cases h1 : ev.attendees.any
              (fun x => x.status == CalendarAttendeeStatus.ADDED) = true <;>
            by_cases h2 :
                (sendInviteStep s ev).snd.snd.cancelRecipients.isEmpty = true <;>
              by_cases h3 : updateResponseOf s ua = Answer.yes <;>
                simp [h1, h2, h3, isPersistAction]

/-- A successful invite response run under an external account performs no
store call. -/
theorem respondToOrganizerAndSave_no_persist (s : VMState)
    (existing newEvent : CalendarEvent)
    (hext : s.accountType = AccountType.EXTERNAL)
    (r : Bool) (tr : List Action) (s2 : VMState)
    (h : respondToOrganizerAndSave s existing newEvent = Except.ok (r, tr, s2)) :
    ∀ a ∈ tr, isPersistAction a = false := by
  unfold respondToOrganizerAndSave at h
  split at h
  · split at h
    · simp at h
    · rename_i saveTrace heqs
      rw [saveEvent_external _ _ hext] at heqs
      injection heqs with heqs1
      subst heqs1
      simp only [Except.ok.injEq, Prod.mk.injEq] at h
      obtain ⟨-, htr, -⟩ := h
      subst htr
      simp
  · split at h
    · split at h
      · simp at h
      · split at h
        · simp at h
        · split at h
          · simp at h
          · rename_i saveTrace heqs
            rw [saveEvent_external _ _ hext] at heqs
            injection heqs with heqs1
            subst heqs1
            simp only [Except.ok.injEq, Prod.mk.injEq] at h
            obtain ⟨-, htr, -⟩ := h
            subst htr
            simp [isPersistAction]
    · split at h
      · simp at h
      · rename_i saveTrace heqs
        rw [saveEvent_external _ _ hext] at heqs
        injection heqs with heqs1
        subst heqs1
        simp only [Except.ok.injEq, Prod.mk.injEq] at h
        obtain ⟨-, htr, -⟩ := h
        subst htr
        simp

/-- A successful saveAndSend body run under an external account performs no
store call. -/
theorem saveAndSendBody_no_persist (s0 : VMState) (ua : Answer) (pa : Bool)
    (hext : s0.accountType = AccountType.EXTERNAL)
    (r : Bool) (tr : List Action) (s2 : VMState)
    (h : saveAndSendBody s0 ua pa = Except.ok (r, tr, s2)) :
    ∀ a ∈ tr, isPersistAction a = false := by
  unfold saveAndSendBody at h
  split at h
  · simp at h
  · rename_i newEvent heqn
    split at h
    · exact sendNotificationAndSave_no_persist s0 ua pa newEvent hext r tr s2 h
    · split at h
      · split at h
        · simp at h
        · rename_i existing heqe
          exact respondToOrganizerAndSave_no_persist s0 existing newEvent hext
            r tr s2 h
      · split at h
        · simp at h
        · rename_i saveTrace heqs
          rw [saveEvent_external _ _ hext] at heqs
          injection heqs with heqs1
          subst heqs1
          simp only [Except.ok.injEq, Prod.mk.injEq] at h
          obtain ⟨-, htr, -⟩ := h
          subst htr
          simp

/-- C10: under an external account the persistence step resolves
successfully with no store call for every event, and every saveAndSend run
that resolves does so without a single observable createEvent or updateEvent
call in its trace. -/
theorem claim_C10 (s : VMState) (ua : Answer) (pa : Bool)
    (hext : s.accountType = AccountType.EXTERNAL) :
    (∀ ev, saveEvent s ev = Except.ok []) ∧
    ∀ r tr s2, saveAndSend s ua pa = (Except.ok r, tr, s2) →
      ∀ a ∈ tr, isPersistAction a = false := by
  refine ⟨fun ev => saveEvent_external s ev hext, ?_⟩
  intro r tr s2 h
  unfold saveAndSend at h
  split at h
  · simp only [Prod.mk.injEq] at h
    obtain ⟨-, htr, -⟩ := h
    subst htr
    simp
  · split at h
    · rename_i val heqb
      simp only [Prod.mk.injEq] at h
      obtain ⟨-, htr, -⟩ := h
      subst htr
      have hext0 : ({ s with processing := true } : VMState).accountType =
          AccountType.EXTERNAL := hext
      exact saveAndSendBody_no_persist _ ua pa hext0 val.fst val.snd.fst
        val.snd.snd (by rw [heqb])
    · simp at h

/-- External account state for the persistence free save. -/
def c10State : VMState := { baseState with accountType := AccountType.EXTERNAL }

/-- Concrete external account run: the save step succeeds with an empty
trace and no saveAndSend resolution carries a store call. -/
theorem claim_C10_witness :
    c10State.accountType = AccountType.EXTERNAL ∧
    ((∀ ev, saveEvent c10State ev = Except.ok []) ∧
      ∀ r tr s2, saveAndSend c10State Answer.yes true = (Except.ok r, tr, s2) →
        ∀ a ∈ tr, isPersistAction a = false) :=
  ⟨rfl, claim_C10 c10State Answer.yes true rfl⟩

end Tutanota
